import Mathlib

/-!
# Verification of the trading-bot core against its specification

Shallow embedding of the market-structure analyzer, zone extraction,
signal evaluation, position sizing and backtest engines of the
trading-bot repository.  JavaScript numbers are modelled as rationals
(`ℚ`); `toFixed(n)` string formatting followed by `parseFloat` is
modelled by rounding to `n` decimal places; a thrown exception is
modelled as `Option.none`.
-/

namespace TradingBot

/-- An OHLCV candle (`src/types/market.ts`).  `open` is a Lean keyword,
so the open price field is written `openP`. -/
structure OHLCV where
  timestamp : ℤ
  openP : ℚ
  high : ℚ
  low : ℚ
  close : ℚ
  volume : ℚ
deriving DecidableEq, Repr

/-- Default candle used for the (never exercised in-range) `getD`
fallback of index accesses. -/
def defaultCandle : OHLCV := ⟨0, 0, 0, 0, 0, 0⟩

/-- `candles[i]` — array indexing of the source; all uses are in range. -/
def nth (candles : List OHLCV) (i : ℕ) : OHLCV :=
  candles.getD i defaultCandle

inductive SwingType | HIGH | LOW
deriving DecidableEq, Repr

/-- `SMCAnalyzer.SwingPoint`. -/
structure SwingPoint where
  type : SwingType
  price : ℚ
  index : ℕ
  timestamp : ℤ
deriving DecidableEq, Repr

inductive BreakType | BOS | CHOCH | SWEEP
deriving DecidableEq, Repr

inductive Direction | BULLISH | BEARISH
deriving DecidableEq, Repr

/-- `'BULLISH' | 'BEARISH' | 'RANGING'` of `SMCAnalysis.structure`. -/
inductive MarketStructure | BULLISH | BEARISH | RANGING
deriving DecidableEq, Repr

def Direction.toStructure : Direction → MarketStructure
  | .BULLISH => .BULLISH
  | .BEARISH => .BEARISH

/-- `SMCAnalyzer.StructureBreak`.  The extra `swing` field is ghost
instrumentation recording the active swing point the break was emitted
against (the source only stores its `price`); it is used to state the
no-lookahead property and does not influence any computation. -/
structure StructureBreak where
  type : BreakType
  direction : Direction
  index : ℕ
  price : ℚ
  timestamp : ℤ
  isConfirmed : Bool
  swing : SwingPoint
deriving DecidableEq, Repr

/-- `SMCAnalyzer.findSwingHighs` candidate test at index `i`: the source
loops `i` from `left` to `length - right - 1` and rejects `i` when some
`high[i-j] ≥ high[i]` (`j ∈ [1,left]`) or some `high[i+j] > high[i]`
(`j ∈ [1,right]`). -/
def isSwingHigh (candles : List OHLCV) (left right i : ℕ) : Bool :=
  decide (left ≤ i) && decide (i + right < candles.length) &&
  (List.range left).all (fun j => !decide ((nth candles (i - (j+1))).high ≥ (nth candles i).high)) &&
  (List.range right).all (fun j => !decide ((nth candles (i + (j+1))).high > (nth candles i).high))

/-- Mirror of `isSwingHigh` for `findSwingLows`: reject when some
`low[i-j] ≤ low[i]` or some `low[i+j] < low[i]`. -/
def isSwingLow (candles : List OHLCV) (left right i : ℕ) : Bool :=
  decide (left ≤ i) && decide (i + right < candles.length) &&
  (List.range left).all (fun j => !decide ((nth candles (i - (j+1))).low ≤ (nth candles i).low)) &&
  (List.range right).all (fun j => !decide ((nth candles (i + (j+1))).low < (nth candles i).low))

/-- `SMCAnalyzer.findSwingHighs` (defaults `left = right = 2`). -/
def findSwingHighs (candles : List OHLCV) (left right : ℕ) : List SwingPoint :=
  ((List.range candles.length).filter (fun i => isSwingHigh candles left right i)).map
    (fun i => ⟨.HIGH, (nth candles i).high, i, (nth candles i).timestamp⟩)

/-- `SMCAnalyzer.findSwingLows` (defaults `left = right = 2`). -/
def findSwingLows (candles : List OHLCV) (left right : ℕ) : List SwingPoint :=
  ((List.range candles.length).filter (fun i => isSwingLow candles left right i)).map
    (fun i => ⟨.LOW, (nth candles i).low, i, (nth candles i).timestamp⟩)

/-- Mutable state of the `findStructureBreaks` scan: the two swing
cursors are represented by the not-yet-consumed suffixes of the swing
lists. -/
structure BState where
  pendHighs : List SwingPoint
  pendLows : List SwingPoint
  lastHigh : Option SwingPoint
  lastLow : Option SwingPoint
  trend : Direction
  breaks : List StructureBreak
deriving DecidableEq, Repr

/-- The `while (cursor < swings.length && swings[cursor].index < i)`
loops of `findStructureBreaks`: consume pending swings with index `< i`,
remembering the most recently consumed one. -/
def advanceCursor (i : ℕ) :
    List SwingPoint → Option SwingPoint → List SwingPoint × Option SwingPoint
  | [], last => ([], last)
  | s :: rest, last =>
      if s.index < i then advanceCursor i rest (some s) else (s :: rest, last)

/-- Body of one `findStructureBreaks` iteration, after the cursor
advance: `ph` / `pl` are the advanced (pending, active) cursor pairs
and `c` the current candle. -/
def stepBreakCore (c : OHLCV) (i : ℕ) (st : BState)
    (ph pl : List SwingPoint × Option SwingPoint) : BState :=
  match ph.2, pl.2 with
  | some hswing, some lswing =>
    match st.trend with
    | .BULLISH =>
        if c.high > hswing.price then
          let isBOS := c.close > hswing.price
          { pendHighs := ph.1, pendLows := pl.1,
            lastHigh := if isBOS then none else some hswing,
            lastLow := some lswing, trend := .BULLISH,
            breaks := st.breaks ++
              [⟨if isBOS then .BOS else .SWEEP, .BULLISH, i, hswing.price,
                c.timestamp, isBOS, hswing⟩] }
        else if c.low < lswing.price then
          let isCHOCH := c.close < lswing.price
          { pendHighs := ph.1, pendLows := pl.1,
            lastHigh := some hswing,
            lastLow := if isCHOCH then none else some lswing,
            trend := if isCHOCH then .BEARISH else .BULLISH,
            breaks := st.breaks ++
              [⟨if isCHOCH then .CHOCH else .SWEEP, .BEARISH, i, lswing.price,
                c.timestamp, isCHOCH, lswing⟩] }
        else
          { pendHighs := ph.1, pendLows := pl.1, lastHigh := some hswing,
            lastLow := some lswing, trend := st.trend, breaks := st.breaks }
    | .BEARISH =>
        if c.low < lswing.price then
          let isBOS := c.close < lswing.price
          { pendHighs := ph.1, pendLows := pl.1,
            lastHigh := some hswing,
            lastLow := if isBOS then none else some lswing,
            trend := .BEARISH,
            breaks := st.breaks ++
              [⟨if isBOS then .BOS else .SWEEP, .BEARISH, i, lswing.price,
                c.timestamp, isBOS, lswing⟩] }
        else if c.high > hswing.price then
          let isCHOCH := c.close > hswing.price
          { pendHighs := ph.1, pendLows := pl.1,
            lastHigh := if isCHOCH then none else some hswing,
            lastLow := some lswing,
            trend := if isCHOCH then .BULLISH else .BEARISH,
            breaks := st.breaks ++
              [⟨if isCHOCH then .CHOCH else .SWEEP, .BULLISH, i, hswing.price,
                c.timestamp, isCHOCH, hswing⟩] }
        else
          { pendHighs := ph.1, pendLows := pl.1, lastHigh := some hswing,
            lastLow := some lswing, trend := st.trend, breaks := st.breaks }
  | _, _ =>
      { pendHighs := ph.1, pendLows := pl.1, lastHigh := ph.2, lastLow := pl.2,
        trend := st.trend, breaks := st.breaks }

/-- One iteration of the `findStructureBreaks` candle loop: advance the
two swing cursors past index `i`, then classify the candle. -/
def stepBreak (candles : List OHLCV) (st : BState) (i : ℕ) : BState :=
  stepBreakCore (nth candles i) i st
    (advanceCursor i st.pendHighs st.lastHigh)
    (advanceCursor i st.pendLows st.lastLow)

def initBState (highs lows : List SwingPoint) : BState :=
  ⟨highs, lows, none, none, .BULLISH, []⟩

/-- `SMCAnalyzer.findStructureBreaks`. -/
def findStructureBreaks (candles : List OHLCV)
    (highs lows : List SwingPoint) : List StructureBreak :=
  ((List.range candles.length).foldl (stepBreak candles) (initBState highs lows)).breaks

/-- `SMCAnalyzer.OrderBlock`. -/
structure OrderBlock where
  type : Direction
  top : ℚ
  bottom : ℚ
  index : ℕ
  timestamp : ℤ
  mitigated : Bool
  mitigationIndex : Option ℕ
deriving DecidableEq, Repr

/-- `SMCAnalyzer.FairValueGap`. -/
structure FairValueGap where
  type : Direction
  top : ℚ
  bottom : ℚ
  index : ℕ
  timestamp : ℤ
  mitigated : Bool
  mitigationIndex : Option ℕ
deriving DecidableEq, Repr

/-- First index `i` with `start ≤ i < start + fuel` whose candle
satisfies `p`; direct translation of the forward scanning
`for (let i = start; i < candles.length; i++) ... break` loops. -/
def firstIdx (p : ℕ → Bool) : ℕ → ℕ → Option ℕ
  | _, 0 => none
  | start, fuel + 1 => if p start then some start else firstIdx p (start + 1) fuel

/-- First touch of a zone, scanning candles from `start` to the end. -/
def firstTouch (candles : List OHLCV) (start : ℕ) (p : OHLCV → Bool) : Option ℕ :=
  firstIdx (fun i => p (nth candles i)) start (candles.length - start)

/-- The backward scan of `findOrderBlocks`: indices `bk.index - 1` down
to `max(0, bk.index - 50)`, first candle whose body color is opposite
the break direction. -/
def findOBOrigin (candles : List OHLCV) (bk : StructureBreak) : Option ℕ :=
  let lo := bk.index - 50
  ((List.range (bk.index - lo)).map (fun k => bk.index - 1 - k)).find?
    (fun i =>
      match bk.direction with
      | .BULLISH => decide ((nth candles i).close < (nth candles i).openP)
      | .BEARISH => decide ((nth candles i).close > (nth candles i).openP))

/-- Mitigation re-entry test of an order block
(`candle.low <= ob.top` for bullish, `candle.high >= ob.bottom` for
bearish). -/
def obTouch (ob : OrderBlock) (c : OHLCV) : Bool :=
  match ob.type with
  | .BULLISH => decide (c.low ≤ ob.top)
  | .BEARISH => decide (c.high ≥ ob.bottom)

/-- The second pass of `findOrderBlocks`: flip `mitigated` at the first
re-entry, scanning from `ob.index + 5` (the `+5` buffer of the source). -/
def mitigateOB (candles : List OHLCV) (ob : OrderBlock) : OrderBlock :=
  match firstTouch candles (ob.index + 5) (obTouch ob) with
  | some m => { ob with mitigated := true, mitigationIndex := some m }
  | none => ob

/-- `SMCAnalyzer.findOrderBlocks`. -/
def findOrderBlocks (candles : List OHLCV)
    (breaks : List StructureBreak) : List OrderBlock :=
  (breaks.filterMap (fun bk =>
    (findOBOrigin candles bk).map (fun i =>
      OrderBlock.mk bk.direction (nth candles i).high (nth candles i).low i
        (nth candles i).timestamp false none))).map (mitigateOB candles)

/-- Gap test of `findFVGs` at interior index `i`: bullish gap when
`candle[i+1].low > candle[i-1].high`, bearish when
`candle[i+1].high < candle[i-1].low` (two independent `if`s in the
source, hence a list of at most two gaps). -/
def checkFVG (candles : List OHLCV) (i : ℕ) : List FairValueGap :=
  if 1 ≤ i ∧ i + 1 < candles.length then
    (if (nth candles (i+1)).low > (nth candles (i-1)).high then
      [⟨.BULLISH, (nth candles (i+1)).low, (nth candles (i-1)).high, i,
        (nth candles i).timestamp, false, none⟩] else []) ++
    (if (nth candles (i+1)).high < (nth candles (i-1)).low then
      [⟨.BEARISH, (nth candles (i-1)).low, (nth candles (i+1)).high, i,
        (nth candles i).timestamp, false, none⟩] else [])
  else []

/-- Mitigation wick re-entry test of a gap. -/
def fvgTouch (fvg : FairValueGap) (c : OHLCV) : Bool :=
  match fvg.type with
  | .BULLISH => decide (c.low ≤ fvg.top)
  | .BEARISH => decide (c.high ≥ fvg.bottom)

/-- Mitigation pass of `findFVGs`: first wick back into the gap,
scanning from `fvg.index + 2`. -/
def mitigateFVG (candles : List OHLCV) (fvg : FairValueGap) : FairValueGap :=
  match firstTouch candles (fvg.index + 2) (fvgTouch fvg) with
  | some m => { fvg with mitigated := true, mitigationIndex := some m }
  | none => fvg

/-- `SMCAnalyzer.findFVGs`. -/
def findFVGs (candles : List OHLCV) : List FairValueGap :=
  ((List.range candles.length).flatMap (checkFVG candles)).map (mitigateFVG candles)

/-- `SMCAnalyzer.DealingRange`. -/
structure DealingRange where
  high : ℚ
  low : ℚ
  equilibrium : ℚ
  premiumTop : ℚ
  premiumBottom : ℚ
  discountTop : ℚ
  discountBottom : ℚ
  indexHigh : ℕ
  indexLow : ℕ
deriving DecidableEq, Repr

/-- `SMCAnalyzer.findDealingRange`. -/
def findDealingRange (highs lows : List SwingPoint) : Option DealingRange :=
  match highs.getLast?, lows.getLast? with
  | some lastHigh, some lastLow =>
      let eq := (lastHigh.price + lastLow.price) / 2
      some ⟨lastHigh.price, lastLow.price, eq, lastHigh.price, eq, eq,
        lastLow.price, lastHigh.index, lastLow.index⟩
  | _, _ => none

/-- `SMCAnalyzer.SMCAnalysis`. -/
structure SMCAnalysis where
  structure_ : MarketStructure
  swingHighs : List SwingPoint
  swingLows : List SwingPoint
  breaks : List StructureBreak
  orderBlocks : List OrderBlock
  fvgs : List FairValueGap
  dealingRange : Option DealingRange
deriving DecidableEq, Repr

/-- `SMCAnalyzer.analyze`: the current structure is the direction of the
last non-SWEEP break, or RANGING when no such break exists. -/
def analyze (candles : List OHLCV) : SMCAnalysis :=
  let swingHighs := findSwingHighs candles 2 2
  let swingLows := findSwingLows candles 2 2
  let breaks := findStructureBreaks candles swingHighs swingLows
  let orderBlocks := findOrderBlocks candles breaks
  let fvgs := findFVGs candles
  let dealingRange := findDealingRange swingHighs swingLows
  let confirmedBreaks := breaks.filter (fun b => b.type ≠ .SWEEP)
  let structure_ :=
    match confirmedBreaks.getLast? with
    | some lastBreak => lastBreak.direction.toStructure
    | none => .RANGING
  ⟨structure_, swingHighs, swingLows, breaks, orderBlocks, fvgs, dealingRange⟩

/-! ## `OrderBlockAnalyzer` (`src/analysis/OrderBlockAnalyzer.ts`) -/

/-- `OrderBlockAnalyzer.OrderBlock` (the `candle` field of the source
duplicates `candles[index]` and is dropped). -/
structure OrderBlock15 where
  price : ℚ
  high : ℚ
  low : ℚ
  type : Direction
  index : ℕ
  strength : ℚ
  isMitigated : Bool
deriving DecidableEq, Repr

/-- `OrderBlockAnalyzer.checkIfMitigated`: some candle from
`obIndex + 4` on closes beyond the block. -/
def checkIfMitigated (candles : List OHLCV) (obIndex : ℕ)
    (obLow obHigh : ℚ) (obType : Direction) : Bool :=
  (List.range candles.length).any fun i =>
    decide (obIndex + 4 ≤ i) &&
    (match obType with
     | .BULLISH => decide ((nth candles i).close < obLow)
     | .BEARISH => decide ((nth candles i).close > obHigh))

/-- `OrderBlockAnalyzer.checkBullishOrderBlock`: a candle followed
within three candles by a move up of at least `MIN_OB_MOVE_PERCENT`
(1.5%). -/
def checkBullishOrderBlock (candles : List OHLCV) (index : ℕ) : Option OrderBlock15 :=
  if index + 3 < candles.length then
    let c := nth candles index
    let highestHigh := max (max (nth candles (index+1)).high (nth candles (index+2)).high)
      (nth candles (index+3)).high
    let movePercent := (highestHigh - c.high) / c.high * 100
    if movePercent ≥ 3/2 then
      some ⟨(c.high + c.low) / 2, c.high, c.low, .BULLISH, index, movePercent,
        checkIfMitigated candles index c.low c.high .BULLISH⟩
    else none
  else none

/-- `OrderBlockAnalyzer.checkBearishOrderBlock`. -/
def checkBearishOrderBlock (candles : List OHLCV) (index : ℕ) : Option OrderBlock15 :=
  if index + 3 < candles.length then
    let c := nth candles index
    let lowestLow := min (min (nth candles (index+1)).low (nth candles (index+2)).low)
      (nth candles (index+3)).low
    let movePercent := (c.low - lowestLow) / c.low * 100
    if movePercent ≥ 3/2 then
      some ⟨(c.high + c.low) / 2, c.high, c.low, .BEARISH, index, movePercent,
        checkIfMitigated candles index c.low c.high .BEARISH⟩
    else none
  else none

/-- `OrderBlockAnalyzer.detectOrderBlocks` (default `lookback = 50`):
fewer than 10 candles yields the empty list; detected blocks already
mitigated are filtered out. -/
def detectOrderBlocks (candles : List OHLCV) (lookback : ℕ) : List OrderBlock15 :=
  if candles.length < 10 then []
  else
    let startIndex := candles.length - lookback
    (((List.range' startIndex (candles.length - 3 - startIndex)).flatMap fun i =>
      (checkBullishOrderBlock candles i).toList ++
      (checkBearishOrderBlock candles i).toList)).filter
      (fun ob => !ob.isMitigated)

/-- `OrderBlockAnalyzer.isPriceNearOrderBlock`. -/
def isPriceNearOrderBlock (currentPrice : ℚ) (ob : OrderBlock15) (tolerance : ℚ) : Bool :=
  let obMid := (ob.high + ob.low) / 2
  decide (|currentPrice - obMid| / obMid ≤ tolerance)

/-! ## `TradeSignal` and the strategy engines -/

inductive Action | BUY | SELL | NO_TRADE
deriving DecidableEq, Repr

/-- Entries of the human-readable `reasoning` trail.  The source stores
interpolated strings; they are modelled as tagged values carrying the
interpolated data. -/
inductive Reason
  | smcSync (action : Action) (rr : ℚ)
  | text (s : String)
deriving DecidableEq, Repr

/-- `src/types/trading.ts` `TradeSignal`. -/
structure TradeSignal where
  action : Action
  confidence : ℚ
  reasoning : List Reason
  price : ℚ
  timestamp : ℤ
  stopLoss : Option ℚ
  takeProfit1 : Option ℚ
  takeProfit2 : Option ℚ
  timeframe : Option String
deriving DecidableEq, Repr

def directionOf : MarketStructure → Option Direction
  | .BULLISH => some .BULLISH
  | .BEARISH => some .BEARISH
  | .RANGING => none

/-- The synchronous `StrategyEngine.evaluate` of
`src/engine/StrategyEngine.ts` (pure SMC path used by the backtester).
`none` models the `TypeError` thrown on the empty array by the
`candles[candles.length - 1].close` read that precedes the length
guard; `minRR` is the only configuration field this path reads
(`config.minRiskReward`, 1.5 in `OPTIMIZED_CONFIG`). -/
def evaluateSync (minRR : ℚ) (candles : List OHLCV) : Option TradeSignal :=
  match candles.getLast? with
  | none => none
  | some lastC =>
    let currentPrice := lastC.close
    let base : TradeSignal :=
      ⟨.NO_TRADE, 0, [], currentPrice, lastC.timestamp, none, none, none, none⟩
    if candles.length < 100 then some base
    else
      let smc := analyze candles
      match directionOf smc.structure_ with
      | none => some base
      | some trend =>
        let obs := detectOrderBlocks candles 50
        let validOBs := obs.filter (fun ob => ob.type = trend && !ob.isMitigated)
        match validOBs.getLast? with
        | none => some base
        | some ob =>
          if !isPriceNearOrderBlock currentPrice ob (1/100) then some base
          else
            let stopLoss0 : ℚ := match trend with | .BULLISH => ob.low | .BEARISH => ob.high
            -- `smc.dealingRange?.high || currentPrice * 1.02` — JS `||`
            -- falls through on `undefined` and on `0`.
            let target : ℚ :=
              match trend, smc.dealingRange with
              | .BULLISH, some dr => if dr.high = 0 then currentPrice * (102/100) else dr.high
              | .BULLISH, none => currentPrice * (102/100)
              | .BEARISH, some dr => if dr.low = 0 then currentPrice * (98/100) else dr.low
              | .BEARISH, none => currentPrice * (98/100)
            let risk0 : ℚ := if |currentPrice - stopLoss0| = 0 then 1/10000
              else |currentPrice - stopLoss0|
            let minRisk := currentPrice * (2/10 / 100)
            let stopLoss : ℚ :=
              if risk0 < minRisk then
                match trend with
                | .BULLISH => currentPrice - minRisk
                | .BEARISH => currentPrice + minRisk
              else stopLoss0
            let risk := if risk0 < minRisk then minRisk else risk0
            let reward := |target - currentPrice|
            let rr0 := reward / risk
            let rr := if rr0 > 10 then 10 else rr0
            if rr < minRR then some base
            else
              let action : Action := match trend with | .BULLISH => .BUY | .BEARISH => .SELL
              some { base with
                action := action, stopLoss := some stopLoss,
                takeProfit1 := some target, confidence := 6/10,
                reasoning := [.smcSync action rr] }

/-- `StrategyEngine.createSignal` of the high risk-reward engine
(`part_001`).  The source stamps `timestamp: Date.now()`; the ambient
wall clock is made explicit as the `now` argument. -/
def createSignal (now : ℤ) (action : Action) (confidence : ℚ)
    (reasoning : List Reason) (price : ℚ)
    (stopLoss takeProfit1 takeProfit2 : Option ℚ)
    (timeframe : Option String) : TradeSignal :=
  ⟨action, confidence, reasoning, price, now, stopLoss, takeProfit1, takeProfit2, timeframe⟩

/-! ## Number formatting

JS `x.toFixed(n)` renders `x` rounded half-away-from-zero to `n`
decimal places; the later `parseFloat` reads the rounded value back.
The composition is modelled as rounding in `ℚ`. -/

def rndAway (q : ℚ) : ℤ := if q ≥ 0 then ⌊q + 1/2⌋ else -⌊-q + 1/2⌋

def toFixedQ (n : ℕ) (q : ℚ) : ℚ := (rndAway (q * 10 ^ n) : ℚ) / 10 ^ n

/-! ## `PositionSizer` (`src/execution/PositionSizer.ts`) -/

/-- `PositionSizingConfig` with its constructor defaults. -/
structure PSConfig where
  accountBalance : ℚ := 25000
  riskPercentage : ℚ := 1
  maxRiskPercentage : ℚ := 3
  minRiskPercentage : ℚ := 1/4
  maxDailyLoss : ℚ := 5
  maxMonthlyLoss : ℚ := 15
  maxConsecutiveLosses : ℕ := 3
  maxOpenPositions : ℕ := 3
deriving DecidableEq, Repr

/-- Tracking state of a `PositionSizer` instance. -/
structure PSState where
  config : PSConfig
  currentBalance : ℚ
  dailyLoss : ℚ := 0
  monthlyLoss : ℚ := 0
  consecutiveLosses : ℕ := 0
  openPositionsCount : ℕ := 0
deriving DecidableEq, Repr

def mkPositionSizer (config : PSConfig) : PSState :=
  { config := config, currentBalance := config.accountBalance }

/-- quantity/riskAmount pair of a sizing method, after the
`toFixed(4)` / `toFixed(2)` formatting of the source (presentational
echo fields of the returned objects are omitted). -/
structure MethodSizing where
  quantity : ℚ
  riskAmount : ℚ
deriving DecidableEq, Repr

/-- `PositionSizer.fixedPercentageRisk`. -/
def fixedPercentageRisk (st : PSState) (entryPrice stopLossPrice : ℚ) : MethodSizing :=
  let riskAmount := st.currentBalance * (st.config.riskPercentage / 100)
  let riskPerPoint := |entryPrice - stopLossPrice|
  ⟨toFixedQ 4 (riskAmount / riskPerPoint), toFixedQ 2 riskAmount⟩

/-- `PositionSizer.kellyCriterion` (all call sites use half-Kelly);
only the `riskAmount` consumed by `kellyCriterionWithPrice` is kept. -/
def kellyCriterion (st : PSState) (winProbability riskRewardRatio : ℚ) : Option ℚ :=
  if winProbability < 0 ∨ winProbability > 1 then none
  else if riskRewardRatio ≤ 0 then none
  else
    let p := winProbability
    let q := 1 - winProbability
    let b := riskRewardRatio
    let kellyFraction0 := ((b * p) - q) / b
    let kellyFraction := if kellyFraction0 < 0 then 0 else kellyFraction0
    let finalFraction := min (kellyFraction * (1/2)) (st.config.maxRiskPercentage / 100)
    some (toFixedQ 2 (st.currentBalance * finalFraction))

/-- `PositionSizer.kellyCriterionWithPrice`. -/
def kellyCriterionWithPrice (st : PSState)
    (entryPrice stopLossPrice takeProfitPrice winProbability : ℚ) : Option MethodSizing :=
  let riskPerPoint := |entryPrice - stopLossPrice|
  let rewardPerPoint := |takeProfitPrice - entryPrice|
  (kellyCriterion st winProbability (rewardPerPoint / riskPerPoint)).map
    (fun ra => ⟨toFixedQ 4 (ra / riskPerPoint), ra⟩)

/-- `PositionSizer.volatilityAdjustedSizing`. -/
def volatilityAdjustedSizing (st : PSState)
    (entryPrice stopLossPrice atr averageAtr : ℚ) : Option MethodSizing :=
  if atr = 0 ∨ averageAtr = 0 then none
  else
    let volatilityRatio := atr / averageAtr
    let adjusted := min (max (st.config.riskPercentage / volatilityRatio)
      st.config.minRiskPercentage) st.config.maxRiskPercentage
    let riskAmount := st.currentBalance * (adjusted / 100)
    some ⟨toFixedQ 4 (riskAmount / |entryPrice - stopLossPrice|), toFixedQ 2 riskAmount⟩

/-- Grade multipliers of `confidenceGradedSizing` (unknown grades fall
back to 0.75). -/
def gradeMultiplier : String → ℚ
  | "A+" => 3/2
  | "A" => 5/4
  | "B+" => 1
  | "B" => 3/4
  | "C" => 1/2
  | "D" => 1/4
  | _ => 3/4

/-- `PositionSizer.confidenceGradedSizing`. -/
def confidenceGradedSizing (st : PSState) (entryPrice stopLossPrice : ℚ)
    (tradeGrade : String) (confidenceScore : ℚ) : MethodSizing :=
  let effectiveMultiplier := gradeMultiplier tradeGrade * (1/2 + confidenceScore * (1/2))
  let adjusted := min (max (st.config.riskPercentage * effectiveMultiplier)
    st.config.minRiskPercentage) st.config.maxRiskPercentage
  let riskAmount := st.currentBalance * (adjusted / 100)
  ⟨toFixedQ 4 (riskAmount / |entryPrice - stopLossPrice|), toFixedQ 2 riskAmount⟩

/-- `PositionSizer.momentumBasedSizing`. -/
def momentumBasedSizing (st : PSState) (entryPrice stopLossPrice : ℚ)
    (momentumScore : ℚ) : MethodSizing :=
  let multiplier : ℚ :=
    if momentumScore ≥ 9/10 then 3/2
    else if momentumScore ≥ 7/10 then 5/4
    else if momentumScore ≥ 5/10 then 1
    else if momentumScore ≥ 3/10 then 3/5
    else 3/10
  let adjusted := min (max (st.config.riskPercentage * multiplier)
    st.config.minRiskPercentage) st.config.maxRiskPercentage
  let riskAmount := st.currentBalance * (adjusted / 100)
  ⟨toFixedQ 4 (riskAmount / |entryPrice - stopLossPrice|), toFixedQ 2 riskAmount⟩

/-- Result of `PositionSizer.canOpenPosition`. -/
structure RiskCheck where
  belowMaxDailyLoss : Bool
  belowMaxMonthlyLoss : Bool
  belowMaxOpenPositions : Bool
  notTooManyConsecutiveLosses : Bool
  sufficientCapital : Bool
  canOpen : Bool
  failureReasons : List String
deriving DecidableEq, Repr

/-- `PositionSizer.canOpenPosition`. -/
def canOpenPosition (st : PSState) (riskAmount : ℚ) : RiskCheck :=
  let c1 := decide (st.dailyLoss + riskAmount ≤ st.config.accountBalance * (st.config.maxDailyLoss / 100))
  let c2 := decide (st.monthlyLoss + riskAmount ≤ st.config.accountBalance * (st.config.maxMonthlyLoss / 100))
  let c3 := decide (st.openPositionsCount < st.config.maxOpenPositions)
  let c4 := decide (st.consecutiveLosses < st.config.maxConsecutiveLosses)
  let c5 := decide (riskAmount ≤ st.currentBalance * (5/100))
  ⟨c1, c2, c3, c4, c5, c1 && c2 && c3 && c4 && c5,
    (if c1 then [] else ["belowMaxDailyLoss"]) ++
    (if c2 then [] else ["belowMaxMonthlyLoss"]) ++
    (if c3 then [] else ["belowMaxOpenPositions"]) ++
    (if c4 then [] else ["notTooManyConsecutiveLosses"]) ++
    (if c5 then [] else ["sufficientCapital"])⟩

/-- Result of `PositionSizer.intelligentSizing`: the recommendation
(quantity `toFixed(4)`, riskAmount `toFixed(2)`, plus the raw entry and
stop echoed back) and the risk check; the presentational
`methodComparison` strings are omitted. -/
structure IntelligentSizing where
  quantity : ℚ
  riskAmount : ℚ
  entryPrice : ℚ
  stopLoss : ℚ
  riskCheck : RiskCheck
deriving DecidableEq, Repr

/-- `PositionSizer.intelligentSizing`.  Optional params mirror the JS
truthiness guards (`takeProfitPrice ? ... : null`, `atr && averageAtr`):
an absent or zero value disables the method, which then falls back to
the fixed-percentage quantity in the blend.  Defaults of the source:
`winProbability = 0.55`, `tradeGrade = 'B'`, `confidenceScore = 0.5`,
`momentumScore = 0.5`. -/
def intelligentSizing (st : PSState) (entryPrice stopLossPrice : ℚ)
    (takeProfitPrice atr averageAtr : Option ℚ)
    (winProbability : ℚ) (tradeGrade : String)
    (confidenceScore momentumScore : ℚ) : IntelligentSizing :=
  let fixed := fixedPercentageRisk st entryPrice stopLossPrice
  let kelly : Option MethodSizing :=
    match takeProfitPrice with
    | some tp => if tp = 0 then none
        else kellyCriterionWithPrice st entryPrice stopLossPrice tp winProbability
    | none => none
  let volatility : Option MethodSizing :=
    match atr, averageAtr with
    | some a, some b => if a = 0 ∨ b = 0 then none
        else volatilityAdjustedSizing st entryPrice stopLossPrice a b
    | _, _ => none
  let confidence := confidenceGradedSizing st entryPrice stopLossPrice tradeGrade confidenceScore
  let momentum := momentumBasedSizing st entryPrice stopLossPrice momentumScore
  let weightedQty :=
    fixed.quantity * (2/10) +
    ((kelly.map MethodSizing.quantity).getD fixed.quantity) * (25/100) +
    ((volatility.map MethodSizing.quantity).getD fixed.quantity) * (2/10) +
    confidence.quantity * (2/10) +
    momentum.quantity * (15/100)
  let riskAmount := confidence.riskAmount
  ⟨toFixedQ 4 weightedQty, toFixedQ 2 riskAmount, entryPrice, stopLossPrice,
    canOpenPosition st riskAmount⟩

/-! ## `AccountManager` (`src/core/AccountManager.ts`) -/

structure AMConfig where
  initialCapital : ℚ
  commission : ℚ
  slippage : ℚ
  riskPerTrade : ℚ
  maxDailyLoss : ℚ
  maxTradesPerDay : ℕ
  leverage : ℚ
deriving DecidableEq, Repr

structure AMState where
  initialCapital : ℚ
  capital : ℚ
  equity : ℚ
  todayPNL : ℚ
  weeklyPNL : ℚ
  tradesToday : ℕ
  winningStreak : ℕ
  losingStreak : ℕ
  maxEquity : ℚ
  maxDrawdown : ℚ
deriving DecidableEq, Repr

def mkAccountManager (config : AMConfig) : AMState :=
  ⟨config.initialCapital, config.initialCapital, config.initialCapital,
    0, 0, 0, 0, 0, config.initialCapital, 0⟩

structure PositionSizeResult where
  shares : ℚ
  riskAmount : ℚ
deriving DecidableEq, Repr

/-- `AccountManager.calculatePositionSize`: risk-based size, capped so
`shares × entry ≤ capital × leverage`, then floored (`Math.floor`, i.e.
toward `-∞`) to two decimals. -/
def calculatePositionSize (state : AMState) (config : AMConfig)
    (entryPrice stopLoss : ℚ) : PositionSizeResult :=
  let riskPerShare := |entryPrice - stopLoss|
  if riskPerShare = 0 then ⟨0, 0⟩
  else
    let riskAmount := state.capital * config.riskPerTrade
    let shares0 := riskAmount / riskPerShare
    let maxPositionValue := state.capital * config.leverage
    let shares := if shares0 * entryPrice > maxPositionValue
      then maxPositionValue / entryPrice else shares0
    let floored := (⌊shares * 100⌋ : ℚ) / 100
    ⟨floored, floored * riskPerShare⟩

/-- `AccountManager.updateOnTradeStart`. -/
def updateOnTradeStart (s : AMState) : AMState :=
  { s with tradesToday := s.tradesToday + 1 }

/-- `AccountManager.updateOnTradeEnd`. -/
def updateOnTradeEnd (s : AMState) (pnl : ℚ) : AMState :=
  let capital := s.capital + pnl
  let winningStreak := if pnl > 0 then s.winningStreak + 1 else 0
  let losingStreak := if pnl > 0 then 0 else s.losingStreak + 1
  let maxEquity := if capital > s.maxEquity then capital else s.maxEquity
  let currentDrawdown := maxEquity - capital
  { s with
    capital := capital,
    todayPNL := s.todayPNL + pnl,
    weeklyPNL := s.weeklyPNL + pnl,
    winningStreak := winningStreak,
    losingStreak := losingStreak,
    maxEquity := maxEquity,
    maxDrawdown := if currentDrawdown > s.maxDrawdown then currentDrawdown else s.maxDrawdown }

/-! ## `BacktestEngine` (`src/backtest/BacktestEngine.ts`) -/

inductive PosDir | LONG | SHORT
deriving DecidableEq, Repr

inductive ExitType | STOP_LOSS | TAKE_PROFIT
deriving DecidableEq, Repr

/-- `src/types` `Position` as populated by `openPosition` (the `id`
field — a `Date.now()`/`Math.random()` tag never read back — is
omitted). -/
structure Position where
  entryTime : ℤ
  entryPrice : ℚ
  stopLoss : ℚ
  takeProfit : ℚ
  shares : ℚ
  direction : PosDir
  strategyName : String
  setup : String
  riskAmount : ℚ
  riskPercent : ℚ
  initialCapital : ℚ
deriving DecidableEq, Repr

/-- A completed `Trade` of `closePosition`
(the constant `duration: 'N/A'` is omitted). -/
structure Trade where
  position : Position
  exitTime : ℤ
  exitPrice : ℚ
  exitType : ExitType
  pnl : ℚ
  pnlPercent : ℚ
  riskReward : ℚ
deriving DecidableEq, Repr

inductive SAction | SBUY | SSELL | SWAIT
deriving DecidableEq, Repr

/-- A `BaseStrategy.analyze` signal (`action`, `price`, `stopLoss`,
`takeProfit`, optional `setup`). -/
structure StratSignal where
  action : SAction
  price : ℚ
  stopLoss : ℚ
  takeProfit : ℚ
  setup : String
deriving DecidableEq, Repr

/-- Simulator state threaded through `BacktestEngine.run`.  The ghost
`openEvents` trace records, for every successful `openPosition` call,
the `currentPosition` held immediately before the call; it does not
influence the computation. -/
structure EngState where
  account : AMState
  currentPosition : Option Position
  trades : List Trade
  equityCurve : List (ℤ × ℚ)
  openEvents : List (Option Position)
deriving DecidableEq, Repr

/-- `BacktestEngine.checkExit`. -/
def checkExit (position : Position) (candle : OHLCV) : Option (ℚ × ExitType) :=
  match position.direction with
  | .LONG =>
      if candle.low ≤ position.stopLoss then some (position.stopLoss, .STOP_LOSS)
      else if candle.high ≥ position.takeProfit then some (position.takeProfit, .TAKE_PROFIT)
      else none
  | .SHORT =>
      if candle.high ≥ position.stopLoss then some (position.stopLoss, .STOP_LOSS)
      else if candle.low ≤ position.takeProfit then some (position.takeProfit, .TAKE_PROFIT)
      else none

/-- `BacktestEngine.closePosition`. -/
def closePosition (config : AMConfig) (position : Position) (exitPrice : ℚ)
    (ty : ExitType) (candle : OHLCV) (st : EngState) : EngState :=
  let pnl0 := match position.direction with
    | .LONG => (exitPrice - position.entryPrice) * position.shares
    | .SHORT => (position.entryPrice - exitPrice) * position.shares
  let exitCost := position.shares * exitPrice * (config.commission + config.slippage)
  let pnl := pnl0 - exitCost
  { st with
    account := updateOnTradeEnd st.account pnl,
    currentPosition := none,
    trades := st.trades ++
      [⟨position, candle.timestamp, exitPrice, ty, pnl,
        pnl / position.initialCapital * 100, |pnl / position.riskAmount|⟩] }

/-- `BacktestEngine.openPosition`.  Note the source assigns
`this.currentPosition` without checking whether a position is already
open. -/
def openPosition (config : AMConfig) (signal : StratSignal) (candle : OHLCV)
    (strategyName : String) (st : EngState) : EngState :=
  let sizing := calculatePositionSize st.account config signal.price signal.stopLoss
  if sizing.shares ≤ 0 then st
  else
    let capital := st.account.capital
    let position : Position :=
      ⟨candle.timestamp, signal.price, signal.stopLoss, signal.takeProfit,
        sizing.shares, (if signal.action = .SBUY then .LONG else .SHORT),
        strategyName, signal.setup, sizing.riskAmount,
        sizing.riskAmount / capital * 100, capital⟩
    let account1 := updateOnTradeStart st.account
    let entryCost := position.shares * position.entryPrice * config.commission
    { st with
      account := updateOnTradeEnd account1 (-entryCost),
      currentPosition := some position,
      openEvents := st.openEvents ++ [st.currentPosition] }

/-- `BacktestEngine.calculateUnrealizedPnL`. -/
def calculateUnrealizedPnL (st : EngState) (candle : OHLCV) : ℚ :=
  match st.currentPosition with
  | none => 0
  | some pos =>
      match pos.direction with
      | .LONG => (candle.close - pos.entryPrice) * pos.shares
      | .SHORT => (pos.entryPrice - candle.close) * pos.shares

/-- One iteration of the `BacktestEngine.run` candle loop: exits, then
entries, then the equity point. -/
def runStep (config : AMConfig) (strategy : List OHLCV → Option StratSignal)
    (strategyName : String) (candles : List OHLCV) (st : EngState) (i : ℕ) : EngState :=
  let currentCandle := nth candles i
  let st1 :=
    match st.currentPosition with
    | some position =>
        match checkExit position currentCandle with
        | some pt => closePosition config position pt.1 pt.2 currentCandle st
        | none => st
    | none => st
  let st2 :=
    match strategy (candles.take (i+1)) with
    | some signal =>
        if signal.action ≠ .SWAIT then
          openPosition config signal currentCandle strategyName st1
        else st1
    | none => st1
  { st2 with equityCurve := st2.equityCurve ++
      [(currentCandle.timestamp, st2.account.capital + calculateUnrealizedPnL st2 currentCandle)] }

/-- `BacktestEngine.run`: iterate candles from index 50. -/
def runBacktest (config : AMConfig) (strategy : List OHLCV → Option StratSignal)
    (strategyName : String) (candles : List OHLCV) : EngState :=
  (List.range' 50 (candles.length - 50)).foldl
    (runStep config strategy strategyName candles)
    ⟨mkAccountManager config, none, [], [], []⟩

/-- `BacktestEngine.calculateResults` aggregates for the ts engine. -/
def tsWins (trades : List Trade) : List Trade := trades.filter (fun t => t.pnl > 0)

def tsLosses (trades : List Trade) : List Trade := trades.filter (fun t => t.pnl ≤ 0)

def tsTotalPnL (trades : List Trade) : ℚ := (trades.map Trade.pnl).sum

def tsGrossProfit (trades : List Trade) : ℚ := ((tsWins trades).map Trade.pnl).sum

def tsGrossLoss (trades : List Trade) : ℚ := |((tsLosses trades).map Trade.pnl).sum|

def tsAvgLoss (trades : List Trade) : ℚ :=
  if (tsLosses trades).length > 0
  then |((tsLosses trades).map Trade.pnl).sum / (tsLosses trades).length|
  else 0

/-- `profitFactor` of `BacktestEngine.calculateResults`
(`src/backtest/BacktestEngine.ts` line 163): a guarded ratio, with the
sentinel `100` (and `0` for a flat book) when there is no loss. -/
def tsProfitFactor (trades : List Trade) : ℚ :=
  if tsAvgLoss trades > 0 then tsGrossProfit trades / tsGrossLoss trades
  else if tsTotalPnL trades > 0 then 100 else 0

/-! ## The second backtest engine (`part_004`, `BacktestEngine.runBacktest`) -/

/-- `BacktestPosition` of `part_004` (`status: 'OPEN'` constant
omitted). -/
structure P4Position where
  coin : String
  type : PosDir
  entryPrice : ℚ
  entryTime : ℤ
  quantity : ℚ
  stopLoss : ℚ
  takeProfit : ℚ
  riskAmount : ℚ
  highWaterMark : ℚ
  isBreakeven : Bool
deriving DecidableEq, Repr

/-- State of a single-instrument `part_004` backtest run: the
`Map<string, BacktestPosition>` keyed by the one backtested coin is an
`Option`. -/
structure P4State where
  equity : ℚ
  position : Option P4Position
  sizer : PSState
deriving DecidableEq, Repr

/-- The per-candle entry logic of `part_004` `runBacktest`
(lines 134-196), given the signal the strategy engine produced for the
window ending at the current candle.  Returns the new state and whether
a position was opened.  The `'error' in sizing` check of the source is
dead (`intelligentSizing` never returns an `error` key) and the branch
taken when a position is already open (a manual-exit check that never
opens) is modelled as the identity, which is all the entry invariant
needs. -/
def p4FallbackStop (signal : TradeSignal) : ℚ :=
  if signal.action = .BUY then signal.price * (98/100) else signal.price * (102/100)

/-- `signal.stopLoss || (BUY ? price * 0.98 : price * 1.02)`:
JS `||` falls through on a missing and on a zero stop. -/
def p4StopLossPrice (signal : TradeSignal) : ℚ :=
  match signal.stopLoss with
  | some sl => if sl = 0 then p4FallbackStop signal else sl
  | none => p4FallbackStop signal

/-- The sizing call of the `part_004` entry path.
`confidence: signal.confidence || 0.5` is passed but
`intelligentSizing` destructures `confidenceScore`, so the
source defaults (`0.55`, `'B'`, `0.5`, `0.5`) apply. -/
def p4Sizing (st : P4State) (signal : TradeSignal) : IntelligentSizing :=
  intelligentSizing st.sizer signal.price (p4StopLossPrice signal)
    none none none (55/100) "B" (1/2) (1/2)

def p4Side (signal : TradeSignal) : PosDir :=
  if signal.action = .BUY then .LONG else .SHORT

/-- The `stopLoss` stored on the opened position:
`sizing.stopLoss || signal.stopLoss || signal.price`. -/
def p4PosStop (sizing : IntelligentSizing) (signal : TradeSignal) : ℚ :=
  if sizing.stopLoss ≠ 0 then sizing.stopLoss
  else match signal.stopLoss with
    | some sl => if sl = 0 then signal.price else sl
    | none => signal.price

def p4EntryStep (commission slippage : ℚ) (coin : String) (candle : OHLCV)
    (signal : TradeSignal) (st : P4State) : P4State × Bool :=
  match st.position with
  | some _ => (st, false)
  | none =>
    if signal.action = .BUY ∨ signal.action = .SELL then
      if (p4Sizing st signal).quantity ≤ 0 then (st, false)
      else if st.equity < (p4Sizing st signal).quantity * signal.price * commission then
        (st, false)
      else
        ({ equity := st.equity - (p4Sizing st signal).quantity * signal.price * commission,
           position := some
             ⟨coin, p4Side signal,
               signal.price * (if p4Side signal = .LONG then 1 + slippage else 1 - slippage),
               candle.timestamp, (p4Sizing st signal).quantity,
               p4PosStop (p4Sizing st signal) signal,
               signal.takeProfit1.getD 0,
               (p4Sizing st signal).riskAmount,
               signal.price, false⟩,
           sizer := st.sizer }, true)
    else (st, false)

/-- A trade record of `part_004` as consumed by `calculateMetrics`:
`netPL` and the WIN/LOSS status assigned on close (`netPL > 0`). -/
structure P4Trade where
  netPL : ℚ
  isWin : Bool
deriving DecidableEq, Repr

def p4WinningSum (trades : List P4Trade) : ℚ :=
  ((trades.filter (fun t => t.isWin)).map P4Trade.netPL).sum

def p4LosingSum (trades : List P4Trade) : ℚ :=
  |((trades.filter (fun t => !t.isWin)).map P4Trade.netPL).sum|

/-- `profitFactor` of `part_004` `calculateMetrics` (lines 469-471):
`losingSum > 0 ? (winningSum / losingSum).toFixed(2) :
winningSum.toFixed(2)`. -/
def p4ProfitFactor (trades : List P4Trade) : ℚ :=
  if p4LosingSum trades > 0
  then toFixedQ 2 (p4WinningSum trades / p4LosingSum trades)
  else toFixedQ 2 (p4WinningSum trades)

/-! ## `MultiTimeframeEngine.determineAlignedTrend`
(`src/engine/exchanges/DeltaAdapter.ts` lines 348-384) -/

/-- `HTFContext` restricted to the two fields `determineAlignedTrend`
reads (`liquidityTarget`, `swingHigh`, … are not consulted). -/
structure HTFContext where
  trend : MarketStructure
  trendStrength : ℚ
deriving DecidableEq, Repr

structure AlignedResult where
  alignedTrend : MarketStructure
  isAligned : Bool
  confidence : ℚ
deriving DecidableEq, Repr

/-- `MultiTimeframeEngine.determineAlignedTrend`. -/
def determineAlignedTrend (daily fourHour : Option HTFContext) : AlignedResult :=
  match daily, fourHour with
  | some d, some f =>
      if d.trend = f.trend ∧ d.trend ≠ .RANGING then
        ⟨d.trend, true, ((d.trendStrength + f.trendStrength) / 2) / 100⟩
      else if d.trend ≠ .RANGING ∧ f.trend = .RANGING ∧ d.trendStrength > 60 then
        ⟨d.trend, false, d.trendStrength / 150⟩
      else ⟨.RANGING, false, 0⟩
  | _, _ => ⟨.RANGING, false, 0⟩

/-! ## Concrete example data -/

/-- Candle constructor for examples (volume 100). -/
def mkC (ts : ℤ) (o h l c : ℚ) : OHLCV := ⟨ts, o, h, l, c, 100⟩

/-- 14 candles: one early swing high (index 2, price 105) and swing low
(index 3, price 88); a wick above 105 at index 12 (also a fresh, not
yet confirmable extreme) and a wick below 88 at index 13. -/
def c3Short : List OHLCV :=
  [mkC 0 96 100 92 94, mkC 1 96 100 92 94, mkC 2 96 105 92 94,
   mkC 3 96 100 88 94, mkC 4 96 100 92 94, mkC 5 93 100 92 96,
   mkC 6 96 100 92 94, mkC 7 96 100 92 94, mkC 8 96 100 92 94,
   mkC 9 96 100 92 94, mkC 10 96 100 92 94, mkC 11 96 100 92 94,
   mkC 12 96 107 85 95, mkC 13 96 100 87 94]

/-- `c3Short` extended by two quiet candles, which confirm index 12 as
a new swing point. -/
def c3Ext : List OHLCV := c3Short ++ [mkC 14 96 100 92 94, mkC 15 96 100 92 94]

/-- The order block that analysis of `c3Short` reports mitigated but
analysis of `c3Ext` does not report at all. -/
def c3LostOB : OrderBlock := ⟨.BEARISH, 100, 92, 5, 5, true, some 10⟩

/-- The first break emitted on `c3Short`: a bullish sweep at index 12
of the swing high confirmed at index 2 + 2 = 4. -/
def c1DemoBreak : StructureBreak :=
  ⟨.SWEEP, .BULLISH, 12, 105, 12, false, ⟨.HIGH, 105, 2, 2⟩⟩

/-- 60 strictly increasing candles:
`open = 2i < close = 2i + 1 < open = 2(i+1)`, with `high = close` and
`low = open`. -/
def mono60 : List OHLCV := (List.range 60).map fun i =>
  ⟨Int.ofNat i, ((2*i : ℕ) : ℚ), ((2*i+1 : ℕ) : ℚ), ((2*i : ℕ) : ℚ), ((2*i+1 : ℕ) : ℚ), 1⟩

/-- 52 flat candles for the backtest counterexample (ascending
timestamps; no stop or target is ever hit). -/
def c5Candles : List OHLCV := (List.range 52).map fun i => ⟨Int.ofNat i, 100, 101, 99, 100, 1⟩

/-- A strategy that always signals BUY at 100, stop 95, target 110. -/
def c5Strategy : List OHLCV → Option StratSignal := fun _ => some ⟨.SBUY, 100, 95, 110, ""⟩

def c5Config : AMConfig := ⟨10000, 1/1000, 0, 1/50, 1/20, 10, 1⟩

def c5Run : EngState := runBacktest c5Config c5Strategy "const" c5Candles

/-- The position opened at candle 50 of the counterexample run. -/
def c5FirstPos : Position := ⟨50, 100, 95, 110, 40, .LONG, "const", "", 200, 2, 10000⟩

/-- Four candles with a bullish fair value gap at index 1
(gap `[10, 12]`) whose wick re-entry happens at index 3. -/
def fvgDemo : List OHLCV :=
  [mkC 0 (19/2) 10 9 (19/2), mkC 1 10 11 10 11, mkC 2 12 13 12 (25/2),
   mkC 3 12 (25/2) 11 (23/2)]

/-- The mitigated gap reported on `fvgDemo`. -/
def fvgDemoGap : FairValueGap := ⟨.BULLISH, 12, 10, 1, 1, true, some 3⟩

/-! ## Swing-point membership lemmas -/

theorem mem_findSwingHighs {candles : List OHLCV} {l r : ℕ} {sp : SwingPoint}
    (h : sp ∈ findSwingHighs candles l r) :
    sp.price = (nth candles sp.index).high ∧ l ≤ sp.index ∧
    sp.index + r < candles.length ∧
    (∀ j, 1 ≤ j → j ≤ l →
      (nth candles (sp.index - j)).high < (nth candles sp.index).high) ∧
    (∀ j, 1 ≤ j → j ≤ r →
      (nth candles (sp.index + j)).high ≤ (nth candles sp.index).high) := by
  unfold findSwingHighs at h
  obtain ⟨i, hi, rfl⟩ := List.mem_map.mp h
  obtain ⟨-, hfil⟩ := List.mem_filter.mp hi
  unfold isSwingHigh at hfil
  simp only [Bool.and_eq_true, List.all_eq_true, List.mem_range, decide_eq_true_eq,
    Bool.not_eq_true', decide_eq_false_iff_not, not_le, not_lt] at hfil
  obtain ⟨⟨⟨hl, hr⟩, hleft⟩, hright⟩ := hfil
  refine ⟨rfl, hl, hr, ?_, ?_⟩
  · intro j hj1 hjl
    have := hleft (j - 1) (by omega)
    have hsub : j - 1 + 1 = j := by omega
    rwa [hsub] at this
  · intro j hj1 hjr
    have := hright (j - 1) (by omega)
    have hsub : j - 1 + 1 = j := by omega
    rwa [hsub] at this

theorem mem_findSwingLows {candles : List OHLCV} {l r : ℕ} {sp : SwingPoint}
    (h : sp ∈ findSwingLows candles l r) :
    sp.price = (nth candles sp.index).low ∧ l ≤ sp.index ∧
    sp.index + r < candles.length ∧
    (∀ j, 1 ≤ j → j ≤ l →
      (nth candles sp.index).low < (nth candles (sp.index - j)).low) ∧
    (∀ j, 1 ≤ j → j ≤ r →
      (nth candles sp.index).low ≤ (nth candles (sp.index + j)).low) := by
  unfold findSwingLows at h
  obtain ⟨i, hi, rfl⟩ := List.mem_map.mp h
  obtain ⟨-, hfil⟩ := List.mem_filter.mp hi
  unfold isSwingLow at hfil
  simp only [Bool.and_eq_true, List.all_eq_true, List.mem_range, decide_eq_true_eq,
    Bool.not_eq_true', decide_eq_false_iff_not, not_le, not_lt] at hfil
  obtain ⟨⟨⟨hl, hr⟩, hleft⟩, hright⟩ := hfil
  refine ⟨rfl, hl, hr, ?_, ?_⟩
  · intro j hj1 hjl
    have := hleft (j - 1) (by omega)
    have hsub : j - 1 + 1 = j := by omega
    rwa [hsub] at this
  · intro j hj1 hjr
    have := hright (j - 1) (by omega)
    have hsub : j - 1 + 1 = j := by omega
    rwa [hsub] at this

/-! ## C4: the swing-window property -/

/-- C4: every swing high returned at index `i` has a strictly greater
high than every candle in `[i-left, i-1]` and a high at least that of
every candle in `[i+1, i+right]` (mirrored comparisons for swing lows),
its price is that candle's high (resp. low), and the returned lists are
ascending by index. -/
theorem swing_window_property (candles : List OHLCV) (l r : ℕ) :
    (∀ sp ∈ findSwingHighs candles l r,
      sp.price = (nth candles sp.index).high ∧
      (∀ j, 1 ≤ j → j ≤ l →
        (nth candles (sp.index - j)).high < (nth candles sp.index).high) ∧
      (∀ j, 1 ≤ j → j ≤ r →
        (nth candles (sp.index + j)).high ≤ (nth candles sp.index).high)) ∧
    (∀ sp ∈ findSwingLows candles l r,
      sp.price = (nth candles sp.index).low ∧
      (∀ j, 1 ≤ j → j ≤ l →
        (nth candles sp.index).low < (nth candles (sp.index - j)).low) ∧
      (∀ j, 1 ≤ j → j ≤ r →
        (nth candles sp.index).low ≤ (nth candles (sp.index + j)).low)) ∧
    List.Pairwise (fun a b => a.index < b.index) (findSwingHighs candles l r) ∧
    List.Pairwise (fun a b => a.index < b.index) (findSwingLows candles l r) := by
  refine ⟨?_, ?_, ?_, ?_⟩
  · intro sp hsp
    obtain ⟨hp, -, -, hleft, hright⟩ := mem_findSwingHighs hsp
    exact ⟨hp, hleft, hright⟩
  · intro sp hsp
    obtain ⟨hp, -, -, hleft, hright⟩ := mem_findSwingLows hsp
    exact ⟨hp, hleft, hright⟩
  · exact List.pairwise_map.mpr ((List.pairwise_lt_range _).filter _)
  · exact List.pairwise_map.mpr ((List.pairwise_lt_range _).filter _)

/-- Witness for C4 at the swing high of `c3Short` confirmed at
index 2. -/
theorem swing_window_property_witness :
    ((⟨.HIGH, 105, 2, 2⟩ : SwingPoint) ∈ findSwingHighs c3Short 2 2) ∧
    (nth c3Short 1).high < (nth c3Short 2).high ∧
    (nth c3Short 3).high ≤ (nth c3Short 2).high := by
  have hm : (⟨.HIGH, 105, 2, 2⟩ : SwingPoint) ∈ findSwingHighs c3Short 2 2 := by decide
  have h := (swing_window_property c3Short 2 2).1 _ hm
  exact ⟨hm, h.2.1 1 le_rfl (by norm_num), h.2.2 1 le_rfl (by norm_num)⟩

/-! ## C1: no lookahead in the structure-break classifier -/

/-- A break references a swing point that is confirmed (swing index
plus right window) strictly before the break candle, and that swing is
one of the detected swing points. -/
def BreakProp (candles : List OHLCV) (l r : ℕ) (b : StructureBreak) : Prop :=
  b.swing.index + r < b.index ∧
  (b.swing ∈ findSwingHighs candles l r ∨ b.swing ∈ findSwingLows candles l r)

/-- Invariant of the classifier state before processing candle `i`. -/
def BInv (candles : List OHLCV) (l r i : ℕ) (st : BState) : Prop :=
  (∀ s ∈ st.pendHighs, s ∈ findSwingHighs candles l r) ∧
  (∀ s ∈ st.pendLows, s ∈ findSwingLows candles l r) ∧
  (∀ s, st.lastHigh = some s → s ∈ findSwingHighs candles l r ∧ s.index < i) ∧
  (∀ s, st.lastLow = some s → s ∈ findSwingLows candles l r ∧ s.index < i) ∧
  (∀ b ∈ st.breaks, BreakProp candles l r b)

theorem advanceCursor_spec (S : List SwingPoint) (i : ℕ) :
    ∀ (pend : List SwingPoint) (last : Option SwingPoint),
      (∀ s ∈ pend, s ∈ S) → (∀ s, last = some s → s ∈ S ∧ s.index < i) →
      (∀ s ∈ (advanceCursor i pend last).1, s ∈ S) ∧
      (∀ s, (advanceCursor i pend last).2 = some s → s ∈ S ∧ s.index < i) := by
  intro pend
  induction pend with
  | nil =>
      intro last hp hl
      exact ⟨by simp [advanceCursor], by simpa [advanceCursor] using hl⟩
  | cons s rest ih =>
      intro last hp hl
      unfold advanceCursor
      split
      · next hlt =>
          exact ih (some s) (fun x hx => hp x (List.mem_cons_of_mem _ hx))
            (fun x hx => by
              injection hx with hx
              subst hx
              exact ⟨hp s (List.mem_cons_self _ _), hlt⟩)
      · exact ⟨hp, hl⟩

/-- A candle whose high strictly exceeds a detected swing high lies
strictly after the swing's right confirmation window: the window itself
guarantees no high in `[s+1, s+r]` exceeds the swing. -/
theorem high_breach_after_window {candles : List OHLCV} {l r : ℕ} {s : SwingPoint}
    (hs : s ∈ findSwingHighs candles l r) {i : ℕ} (hlt : s.index < i)
    (hbr : s.price < (nth candles i).high) : s.index + r < i := by
  by_contra hcon
  push_neg at hcon
  obtain ⟨hp, -, -, -, hright⟩ := mem_findSwingHighs hs
  have hj := hright (i - s.index) (by omega) (by omega)
  rw [show s.index + (i - s.index) = i by omega] at hj
  rw [hp] at hbr
  exact absurd hbr (not_lt.mpr hj)

/-- Mirror of `high_breach_after_window` for swing lows. -/
theorem low_breach_after_window {candles : List OHLCV} {l r : ℕ} {s : SwingPoint}
    (hs : s ∈ findSwingLows candles l r) {i : ℕ} (hlt : s.index < i)
    (hbr : (nth candles i).low < s.price) : s.index + r < i := by
  by_contra hcon
  push_neg at hcon
  obtain ⟨hp, -, -, -, hright⟩ := mem_findSwingLows hs
  have hj := hright (i - s.index) (by omega) (by omega)
  rw [show s.index + (i - s.index) = i by omega] at hj
  rw [hp] at hbr
  exact absurd hbr (not_lt.mpr hj)

theorem stepBreakCore_inv {candles : List OHLCV} {l r i : ℕ} {st : BState}
    {ph pl : List SwingPoint × Option SwingPoint}
    (hH1 : ∀ s ∈ ph.1, s ∈ findSwingHighs candles l r)
    (hH2 : ∀ s, ph.2 = some s → s ∈ findSwingHighs candles l r ∧ s.index < i)
    (hL1 : ∀ s ∈ pl.1, s ∈ findSwingLows candles l r)
    (hL2 : ∀ s, pl.2 = some s → s ∈ findSwingLows candles l r ∧ s.index < i)
    (hbr : ∀ b ∈ st.breaks, BreakProp candles l r b) :
    BInv candles l r (i+1) (stepBreakCore (nth candles i) i st ph pl) := by
  obtain ⟨pendH, lastH⟩ := ph
  obtain ⟨pendL, lastL⟩ := pl
  cases lastH with
  | none =>
      refine ⟨hH1, hL1, ?_, ?_, hbr⟩
      · intro s hs
        obtain ⟨m1, m2⟩ := hH2 s hs
        exact ⟨m1, by omega⟩
      · intro s hs
        obtain ⟨m1, m2⟩ := hL2 s hs
        exact ⟨m1, by omega⟩
  | some hswing =>
    cases lastL with
    | none =>
        refine ⟨hH1, hL1, ?_, ?_, hbr⟩
        · intro s hs
          obtain ⟨m1, m2⟩ := hH2 s hs
          exact ⟨m1, by omega⟩
        · intro s hs
          obtain ⟨m1, m2⟩ := hL2 s hs
          exact ⟨m1, by omega⟩
    | some lswing =>
      have hmemH := hH2 hswing rfl
      have hmemL := hL2 lswing rfl
      have hHok : ∀ s, some hswing = some s →
          s ∈ findSwingHighs candles l r ∧ s.index < i + 1 := by
        intro s hs
        injection hs with hs
        subst hs
        exact ⟨hmemH.1, by omega⟩
      have hLok : ∀ s, some lswing = some s →
          s ∈ findSwingLows candles l r ∧ s.index < i + 1 := by
        intro s hs
        injection hs with hs
        subst hs
        exact ⟨hmemL.1, by omega⟩
      cases hstr : st.trend with
      | BULLISH =>
          dsimp only [stepBreakCore]
          rw [hstr]
          by_cases h1 : (nth candles i).high > hswing.price
          · simp only [if_pos h1]
            refine ⟨hH1, hL1, ?_, hLok, ?_⟩
            · intro s hs
              split at hs
              · exact absurd hs (by simp)
              · injection hs with hs
                subst hs
                exact ⟨hmemH.1, by omega⟩
            · intro b hb
              rcases List.mem_append.mp hb with h | h
              · exact hbr b h
              · rcases List.mem_singleton.mp h with rfl
                exact ⟨high_breach_after_window hmemH.1 hmemH.2 h1, Or.inl hmemH.1⟩
          · simp only [if_neg h1]
            by_cases h3 : (nth candles i).low < lswing.price
            · simp only [if_pos h3]
              refine ⟨hH1, hL1, hHok, ?_, ?_⟩
              · intro s hs
                split at hs
                · exact absurd hs (by simp)
                · injection hs with hs
                  subst hs
                  exact ⟨hmemL.1, by omega⟩
              · intro b hb
                rcases List.mem_append.mp hb with h | h
                · exact hbr b h
                · rcases List.mem_singleton.mp h with rfl
                  exact ⟨low_breach_after_window hmemL.1 hmemL.2 h3, Or.inr hmemL.1⟩
            · simp only [if_neg h3]
              exact ⟨hH1, hL1, hHok, hLok, hbr⟩
      | BEARISH =>
          dsimp only [stepBreakCore]
          rw [hstr]
          by_cases h1 : (nth candles i).low < lswing.price
          · simp only [if_pos h1]
            refine ⟨hH1, hL1, hHok, ?_, ?_⟩
            · intro s hs
              split at hs
              · exact absurd hs (by simp)
              · injection hs with hs
                subst hs
                exact ⟨hmemL.1, by omega⟩
            · intro b hb
              rcases List.mem_append.mp hb with h | h
              · exact hbr b h
              · rcases List.mem_singleton.mp h with rfl
                exact ⟨low_breach_after_window hmemL.1 hmemL.2 h1, Or.inr hmemL.1⟩
          · simp only [if_neg h1]
            by_cases h3 : (nth candles i).high > hswing.price
            · simp only [if_pos h3]
              refine ⟨hH1, hL1, ?_, hLok, ?_⟩
              · intro s hs
                split at hs
                · exact absurd hs (by simp)
                · injection hs with hs
                  subst hs
                  exact ⟨hmemH.1, by omega⟩
              · intro b hb
                rcases List.mem_append.mp hb with h | h
                · exact hbr b h
                · rcases List.mem_singleton.mp h with rfl
                  exact ⟨high_breach_after_window hmemH.1 hmemH.2 h3, Or.inl hmemH.1⟩
            · simp only [if_neg h3]
              exact ⟨hH1, hL1, hHok, hLok, hbr⟩

theorem stepBreak_inv {candles : List OHLCV} {l r i : ℕ} {st : BState}
    (inv : BInv candles l r i st) :
    BInv candles l r (i+1) (stepBreak candles st i) := by
  obtain ⟨hpH, hpL, hlH, hlL, hbr⟩ := inv
  have hH := advanceCursor_spec (findSwingHighs candles l r) i st.pendHighs st.lastHigh hpH hlH
  have hL := advanceCursor_spec (findSwingLows candles l r) i st.pendLows st.lastLow hpL hlL
  exact stepBreakCore_inv hH.1 hH.2 hL.1 hL.2 hbr

theorem breaks_inv (candles : List OHLCV) (l r : ℕ) (n : ℕ) :
    BInv candles l r n ((List.range n).foldl (stepBreak candles)
      (initBState (findSwingHighs candles l r) (findSwingLows candles l r))) := by
  induction n with
  | zero =>
      refine ⟨fun s h => h, fun s h => h, ?_, ?_, ?_⟩ <;>
        simp [initBState]
  | succ n ih =>
      rw [List.range_succ, List.foldl_append, List.foldl_cons, List.foldl_nil]
      exact stepBreak_inv ih

/-- C1 (amended): no lookahead for emitted breaks — every break emitted
by `findStructureBreaks` (over the swing points of `findSwingHighs` /
`findSwingLows` with right window `r`) references a swing point whose
confirmation index `swing.index + r` is strictly before the break
candle index; the swing is a genuinely detected swing point.  The
active-swing tracking itself does not wait for confirmation (see the
counterexample). -/
theorem structureBreaks_no_lookahead (candles : List OHLCV) (l r : ℕ)
    (b : StructureBreak)
    (hb : b ∈ findStructureBreaks candles (findSwingHighs candles l r)
      (findSwingLows candles l r)) :
    b.swing.index + r < b.index ∧
    (b.swing ∈ findSwingHighs candles l r ∨ b.swing ∈ findSwingLows candles l r) :=
  (breaks_inv candles l r candles.length).2.2.2.2 b hb

/-- Witness for C1: the bullish sweep at candle 12 of `c3Short`
references the swing high at index 2, confirmed at index 4 < 12. -/
theorem structureBreaks_no_lookahead_witness :
    (c1DemoBreak ∈ findStructureBreaks c3Short (findSwingHighs c3Short 2 2)
      (findSwingLows c3Short 2 2)) ∧
    c1DemoBreak.swing.index + 2 < c1DemoBreak.index := by
  have hm : c1DemoBreak ∈ findStructureBreaks c3Short (findSwingHighs c3Short 2 2)
      (findSwingLows c3Short 2 2) := by decide
  exact ⟨hm, (structureBreaks_no_lookahead c3Short 2 2 c1DemoBreak hm).1⟩

/-- The active swing high the classifier holds while processing candle
`i`: the value of `lastHigh` right after the cursor-advance `while`
loop of the iteration at `i` (swing windows fixed at the `analyze`
defaults 2/2). -/
def activeHighAt (candles : List OHLCV) (i : ℕ) : Option SwingPoint :=
  (advanceCursor i
    (((List.range i).foldl (stepBreak candles)
      (initBState (findSwingHighs candles 2 2) (findSwingLows candles 2 2))).pendHighs)
    (((List.range i).foldl (stepBreak candles)
      (initBState (findSwingHighs candles 2 2) (findSwingLows candles 2 2))).lastHigh)).2

set_option maxRecDepth 40000 in
/-- Counterexample to C1 as stated: while processing candle 13 of
`c3Ext`, the classifier's active high is the swing at index 12, whose
confirmation index 12 + 2 = 14 is not strictly before 13 — the cursor
consumes a swing as soon as its index is below the candle index, not
once it is confirmed.  Observable consequence: the judgement at candle
13 depends on candles 14-15, so the break lists of `c3Short` and of its
two-candle extension `c3Ext` differ already at indices ≤ 13. -/
theorem active_swing_unconfirmed_counterexample :
    activeHighAt c3Ext 13 = some ⟨.HIGH, 107, 12, 12⟩ ∧
    ¬ (12 + 2 < 13) ∧
    ((findStructureBreaks c3Short (findSwingHighs c3Short 2 2)
        (findSwingLows c3Short 2 2)).filter (fun b => decide (b.index ≤ 13))) ≠
      ((findStructureBreaks c3Ext (findSwingHighs c3Ext 2 2)
        (findSwingLows c3Ext 2 2)).filter (fun b => decide (b.index ≤ 13))) :=
  ⟨by decide, by decide, by decide⟩

/-! ## C2: structure on strictly increasing candles -/

theorem chain'_map_range {α : Type} (R : α → α → Prop) (f : ℕ → α) (n : ℕ)
    (h : ∀ m, m + 1 < n → R (f m) (f (m + 1))) :
    List.Chain' R ((List.range n).map f) := by
  rw [List.chain'_iff_get]
  intro i hi
  simp only [List.length_map, List.length_range] at hi
  rw [List.get_map, List.get_map]
  simp only [List.get_range]
  exact h i (by omega)

theorem chain'_high_adj {candles : List OHLCV}
    (h : List.Chain' (fun a b : OHLCV => a.high < b.high) candles)
    {i : ℕ} (hi : i + 1 < candles.length) :
    (nth candles i).high < (nth candles (i+1)).high := by
  rw [List.chain'_iff_get] at h
  have := h i (by omega)
  unfold nth
  rwa [List.getD_eq_get _ _ (by omega), List.getD_eq_get _ _ (by omega)]

theorem chain'_low_adj {candles : List OHLCV}
    (h : List.Chain' (fun a b : OHLCV => a.low < b.low) candles)
    {i : ℕ} (hi : i + 1 < candles.length) :
    (nth candles i).low < (nth candles (i+1)).low := by
  rw [List.chain'_iff_get] at h
  have := h i (by omega)
  unfold nth
  rwa [List.getD_eq_get _ _ (by omega), List.getD_eq_get _ _ (by omega)]

/-- Strictly increasing highs admit no swing high: the right-window
test already fails at the immediate neighbour. -/
theorem findSwingHighs_eq_nil_of_mono (candles : List OHLCV) (l r : ℕ)
    (hr : 1 ≤ r)
    (h : List.Chain' (fun a b : OHLCV => a.high < b.high) candles) :
    findSwingHighs candles l r = [] := by
  unfold findSwingHighs
  rw [List.map_eq_nil, List.filter_eq_nil]
  intro i hi hcon
  unfold isSwingHigh at hcon
  simp only [Bool.and_eq_true, List.all_eq_true, List.mem_range, decide_eq_true_eq,
    Bool.not_eq_true', decide_eq_false_iff_not, not_le, not_lt] at hcon
  obtain ⟨⟨⟨hl, hlen⟩, -⟩, hright⟩ := hcon
  have hj := hright 0 (by omega)
  have hadj := chain'_high_adj h (i := i) (by omega)
  rw [show i + (0 + 1) = i + 1 by omega] at hj
  exact absurd hadj (not_lt.mpr hj)

/-- Strictly increasing lows admit no swing low: the left-window test
already fails at the immediate neighbour. -/
theorem findSwingLows_eq_nil_of_mono (candles : List OHLCV) (l r : ℕ)
    (hl1 : 1 ≤ l)
    (h : List.Chain' (fun a b : OHLCV => a.low < b.low) candles) :
    findSwingLows candles l r = [] := by
  unfold findSwingLows
  rw [List.map_eq_nil, List.filter_eq_nil]
  intro i hi hcon
  unfold isSwingLow at hcon
  simp only [Bool.and_eq_true, List.all_eq_true, List.mem_range, decide_eq_true_eq,
    Bool.not_eq_true', decide_eq_false_iff_not, not_le, not_lt] at hcon
  obtain ⟨⟨⟨hl, hlen⟩, hleft⟩, -⟩ := hcon
  have hj := hleft 0 (by omega)
  have hadj := chain'_low_adj h (i := i - 1) (by omega)
  rw [show i - 1 + 1 = i by omega] at hadj
  rw [show i - (0 + 1) = i - 1 by omega] at hj
  exact absurd hj (not_lt.mpr hadj.le)

/-- With no swing points, the classifier never gains an active
high/low and emits no break. -/
theorem findStructureBreaks_nil (candles : List OHLCV) :
    findStructureBreaks candles [] [] = [] := by
  unfold findStructureBreaks
  have hfix : ∀ n : ℕ,
      (List.range n).foldl (stepBreak candles) (initBState [] []) = initBState [] [] := by
    intro n
    induction n with
    | zero => rfl
    | succ n ih =>
        rw [List.range_succ, List.foldl_append, List.foldl_cons, List.foldl_nil, ih]
        rfl
  rw [hfix]
  rfl

/-- C2 (amended): on candles whose highs and lows are strictly
increasing, the analyzer confirms no swing point, emits no break at all
and reports RANGING; in general the reported structure is the direction
of the last non-SWEEP (confirmed BOS/CHOCH) break, or RANGING when none
exists, so SWEEP events never determine it. -/
theorem structure_from_last_confirmed_break (candles : List OHLCV)
    (hH : List.Chain' (fun a b : OHLCV => a.high < b.high) candles)
    (hL : List.Chain' (fun a b : OHLCV => a.low < b.low) candles) :
    ((analyze candles).breaks = [] ∧ (analyze candles).structure_ = .RANGING) ∧
    ∀ cs : List OHLCV,
      (analyze cs).structure_ =
        (match ((analyze cs).breaks.filter (fun b => b.type ≠ .SWEEP)).getLast? with
         | some b => b.direction.toStructure
         | none => .RANGING) := by
  have h1 := findSwingHighs_eq_nil_of_mono candles 2 2 (by norm_num) hH
  have h2 := findSwingLows_eq_nil_of_mono candles 2 2 (by norm_num) hL
  have hb : findStructureBreaks candles (findSwingHighs candles 2 2)
      (findSwingLows candles 2 2) = [] := by
    rw [h1, h2]
    exact findStructureBreaks_nil candles
  refine ⟨⟨?_, ?_⟩, ?_⟩
  · show findStructureBreaks candles (findSwingHighs candles 2 2)
      (findSwingLows candles 2 2) = []
    exact hb
  · show (match (((findStructureBreaks candles (findSwingHighs candles 2 2)
      (findSwingLows candles 2 2)).filter (fun b => b.type ≠ .SWEEP)).getLast?) with
      | some b => b.direction.toStructure
      | none => MarketStructure.RANGING) = MarketStructure.RANGING
    rw [hb]
    rfl
  · intro cs
    rfl

/-- Witness for C2 on the 60 strictly increasing candles of `mono60`. -/
theorem structure_from_last_confirmed_break_witness :
    List.Chain' (fun a b : OHLCV => a.high < b.high) mono60 ∧
    (analyze mono60).breaks = [] ∧ (analyze mono60).structure_ = .RANGING := by
  have hH : List.Chain' (fun a b : OHLCV => a.high < b.high) mono60 := by
    unfold mono60
    refine chain'_map_range _ _ 60 fun m hm => ?_
    show ((2*m+1 : ℕ) : ℚ) < ((2*(m+1)+1 : ℕ) : ℚ)
    exact Nat.cast_lt.mpr (by omega)
  have hL : List.Chain' (fun a b : OHLCV => a.low < b.low) mono60 := by
    unfold mono60
    refine chain'_map_range _ _ 60 fun m hm => ?_
    show ((2*m : ℕ) : ℚ) < ((2*(m+1) : ℕ) : ℚ)
    exact Nat.cast_lt.mpr (by omega)
  have h := (structure_from_last_confirmed_break mono60 hH hL).1
  exact ⟨hH, h.1, h.2⟩

set_option maxRecDepth 40000 in
/-- Counterexample to C2 as stated: 60 strictly increasing candles
(`open_i < close_i < open_{i+1}`) for which the analyzer reports
RANGING — not BULLISH — and emits no break whatsoever (so no BOS). -/
theorem scenarioA_counterexample :
    mono60.length = 60 ∧
    ((List.range 59).all fun i =>
      decide ((nth mono60 i).openP < (nth mono60 i).close) &&
      decide ((nth mono60 i).close < (nth mono60 (i+1)).openP)) = true ∧
    (analyze mono60).structure_ = .RANGING ∧
    (analyze mono60).breaks = [] :=
  ⟨by decide, by decide, by decide, by decide⟩

/-! ## C3: mitigation across a growing candle range -/

theorem firstIdx_spec {p : ℕ → Bool} : ∀ {fuel start m : ℕ},
    firstIdx p start fuel = some m →
    start ≤ m ∧ m < start + fuel ∧ p m = true ∧
    ∀ k, start ≤ k → k < m → p k = false := by
  intro fuel
  induction fuel with
  | zero =>
      intro start m h
      exact absurd h (by simp [firstIdx])
  | succ f ih =>
      intro start m h
      simp only [firstIdx] at h
      by_cases hp : p start
      · rw [if_pos hp] at h
        injection h with h
        subst h
        exact ⟨le_rfl, by omega, hp, fun k h1 h2 => absurd h1 (by omega)⟩
      · rw [if_neg hp] at h
        obtain ⟨h1, h2, h3, h4⟩ := ih h
        refine ⟨by omega, by omega, h3, ?_⟩
        intro k hk1 hk2
        rcases eq_or_lt_of_le hk1 with heq | hk
        · rw [← heq]
          revert hp
          cases p start <;> simp
        · exact h4 k (by omega) hk2

theorem firstIdx_extend {p q : ℕ → Bool} : ∀ {fuel fuel' start m : ℕ},
    fuel ≤ fuel' →
    (∀ k, start ≤ k → k < start + fuel → p k = q k) →
    firstIdx p start fuel = some m → firstIdx q start fuel' = some m := by
  intro fuel
  induction fuel with
  | zero =>
      intro fuel' start m _ _ h
      exact absurd h (by simp [firstIdx])
  | succ f ih =>
      intro fuel' start m hle hagree h
      obtain ⟨f', rfl⟩ : ∃ f', fuel' = f' + 1 := ⟨fuel' - 1, by omega⟩
      simp only [firstIdx] at h ⊢
      by_cases hp : p start
      · rw [if_pos hp] at h
        rw [if_pos (by rw [← hagree start le_rfl (by omega)]; exact hp)]
        exact h
      · rw [if_neg hp] at h
        rw [if_neg (by rw [← hagree start le_rfl (by omega)]; exact hp)]
        exact ih (by omega) (fun k h1 h2 => hagree k (by omega) (by omega)) h

theorem nth_append_left {c1 c2 : List OHLCV} {k : ℕ} (h : k < c1.length) :
    nth (c1 ++ c2) k = nth c1 k := by
  unfold nth
  exact List.getD_append _ _ _ _ h

theorem firstTouch_spec {candles : List OHLCV} {start : ℕ} {p : OHLCV → Bool} {m : ℕ}
    (h : firstTouch candles start p = some m) :
    start ≤ m ∧ m < candles.length ∧ p (nth candles m) = true ∧
    ∀ k, start ≤ k → k < m → p (nth candles k) = false := by
  obtain ⟨h1, h2, h3, h4⟩ := firstIdx_spec h
  exact ⟨h1, by omega, h3, h4⟩

/-- A first touch found within the original range is found at the same
index when the candle array is extended on the right. -/
theorem firstTouch_append {c1 c2 : List OHLCV} {start : ℕ} {p : OHLCV → Bool} {m : ℕ}
    (h : firstTouch c1 start p = some m) :
    firstTouch (c1 ++ c2) start p = some m := by
  unfold firstTouch at h ⊢
  refine firstIdx_extend ?_ ?_ h
  · rw [List.length_append]
    omega
  · intro k h1 h2
    rw [nth_append_left (by omega)]

theorem checkFVG_mem_facts {c : List OHLCV} {i : ℕ} {g : FairValueGap}
    (h : g ∈ checkFVG c i) :
    g.index = i ∧ 1 ≤ i ∧ i + 1 < c.length ∧ g.mitigated = false := by
  unfold checkFVG at h
  by_cases hb : 1 ≤ i ∧ i + 1 < c.length
  · rw [if_pos hb] at h
    rcases List.mem_append.mp h with h | h
    · split at h
      · rcases List.mem_singleton.mp h with rfl
        exact ⟨rfl, hb.1, hb.2, rfl⟩
      · exact absurd h (List.not_mem_nil _)
    · split at h
      · rcases List.mem_singleton.mp h with rfl
        exact ⟨rfl, hb.1, hb.2, rfl⟩
      · exact absurd h (List.not_mem_nil _)
  · rw [if_neg hb] at h
    exact absurd h (List.not_mem_nil _)

/-- Gap detection only looks at the candle triple around `i`, so it is
stable under extending the array. -/
theorem checkFVG_append {c1 c2 : List OHLCV} {i : ℕ} (h : i + 1 < c1.length) :
    checkFVG (c1 ++ c2) i = checkFVG c1 i := by
  unfold checkFVG
  have e1 : nth (c1 ++ c2) (i+1) = nth c1 (i+1) := nth_append_left (by omega)
  have e2 : nth (c1 ++ c2) (i-1) = nth c1 (i-1) := nth_append_left (by omega)
  have e3 : nth (c1 ++ c2) i = nth c1 i := nth_append_left (by omega)
  rw [e1, e2, e3]
  by_cases h1 : 1 ≤ i
  · rw [if_pos (show 1 ≤ i ∧ i + 1 < (c1 ++ c2).length from
      ⟨h1, by rw [List.length_append]; omega⟩),
      if_pos (show 1 ≤ i ∧ i + 1 < c1.length from ⟨h1, h⟩)]
  · rw [if_neg (show ¬(1 ≤ i ∧ i + 1 < (c1 ++ c2).length) from fun hc => h1 hc.1),
      if_neg (show ¬(1 ≤ i ∧ i + 1 < c1.length) from fun hc => h1 hc.1)]

/-- C3 (amended): fair-value-gap mitigation is monotonic across
extension of the candle array — a gap reported mitigated on the shorter
array is reported, with the identical mitigation index, on any
right-extension — and the recorded mitigation index is exactly the
first qualifying wick re-entry at or after `index + 2`. -/
theorem fvg_mitigation_monotone (c1 c2 : List OHLCV) :
    ∀ fvg ∈ findFVGs c1, fvg.mitigated = true →
      fvg ∈ findFVGs (c1 ++ c2) ∧
      ∃ m, fvg.mitigationIndex = some m ∧ fvg.index + 2 ≤ m ∧ m < c1.length ∧
        fvgTouch fvg (nth c1 m) = true ∧
        ∀ k, fvg.index + 2 ≤ k → k < m → fvgTouch fvg (nth c1 k) = false := by
  intro fvg hmem hmit
  obtain ⟨g, hg, rfl⟩ := List.mem_map.mp hmem
  obtain ⟨i, hi, hgi⟩ := List.mem_flatMap.mp hg
  obtain ⟨hidx, h1i, hilen, hgm⟩ := checkFVG_mem_facts hgi
  cases hft : firstTouch c1 (g.index + 2) (fvgTouch g) with
  | none =>
      rw [show mitigateFVG c1 g = g by rw [mitigateFVG, hft]] at hmit ⊢
      exact absurd hmit (by rw [hgm]; simp)
  | some m =>
      have hrec : mitigateFVG c1 g =
          { g with mitigated := true, mitigationIndex := some m } := by
        rw [mitigateFVG, hft]
      obtain ⟨hs1, hs2, hs3, hs4⟩ := firstTouch_spec hft
      constructor
      · refine List.mem_map.mpr ⟨g, ?_, ?_⟩
        · refine List.mem_flatMap.mpr ⟨i, List.mem_range.mpr ?_, ?_⟩
          · rw [List.length_append]
            simp only [List.mem_range] at hi
            omega
          · rwa [checkFVG_append (by omega)]
        · rw [mitigateFVG, firstTouch_append hft, hrec]
      · refine ⟨m, ?_, ?_, hs2, ?_, ?_⟩
        · rw [hrec]
        · rw [hrec]
          exact hs1
        · rw [hrec]
          exact hs3
        · rw [hrec]
          exact hs4

/-- Witness for C3 at the bullish gap of `fvgDemo`, mitigated at
index 3, carried into a one-candle extension. -/
theorem fvg_mitigation_monotone_witness :
    (fvgDemoGap ∈ findFVGs fvgDemo ∧ fvgDemoGap.mitigated = true) ∧
    fvgDemoGap ∈ findFVGs (fvgDemo ++ [mkC 4 12 13 12 (25/2)]) := by
  have hm : fvgDemoGap ∈ findFVGs fvgDemo := by decide
  exact ⟨⟨hm, rfl⟩,
    (fvg_mitigation_monotone fvgDemo [mkC 4 12 13 12 (25/2)] fvgDemoGap hm rfl).1⟩

/-- Counterexample to C3 as stated for order blocks: the bearish order
block at index 5 of `c3Short` is reported mitigated (at index 10) by
analysis of the 14 candles, but analysis of the 16-candle extension
reports no order block at that index and direction at all — the break
that originated it disappears once index 12 is confirmed as a swing
point. -/
theorem ob_mitigation_not_monotone_counterexample :
    c3Ext = c3Short ++ [mkC 14 96 100 92 94, mkC 15 96 100 92 94] ∧
    c3LostOB ∈ (analyze c3Short).orderBlocks ∧
    c3LostOB.mitigated = true ∧
    ((analyze c3Ext).orderBlocks.filter
      (fun ob => decide (ob.index = c3LostOB.index) &&
        decide (ob.type = c3LostOB.type))) = [] :=
  ⟨rfl, by decide, rfl, by decide⟩

/-! ## C9: behaviour on insufficient data -/

/-- C9 (amended): on a non-empty candle array shorter than the
documented minimum, the sync evaluator returns the neutral NO_TRADE
signal (and `detectOrderBlocks` below 10 candles, and the swing finders
below `left + right + 1` candles, return the empty list).  The empty
array is excluded: there the evaluator throws (see the
counterexample). -/
theorem insufficient_data_neutral :
    (∀ (minRR : ℚ) (candles : List OHLCV) (lastC : OHLCV),
      candles.getLast? = some lastC → candles.length < 100 →
      evaluateSync minRR candles =
        some ⟨.NO_TRADE, 0, [], lastC.close, lastC.timestamp, none, none, none, none⟩) ∧
    (∀ (candles : List OHLCV) (lookback : ℕ), candles.length < 10 →
      detectOrderBlocks candles lookback = []) ∧
    (∀ (candles : List OHLCV) (l r : ℕ), candles.length < l + r + 1 →
      findSwingHighs candles l r = [] ∧ findSwingLows candles l r = []) := by
  refine ⟨?_, ?_, ?_⟩
  · intro minRR candles lastC hlast hlen
    unfold evaluateSync
    rw [hlast]
    dsimp only
    rw [if_pos hlen]
  · intro candles lookback hlen
    unfold detectOrderBlocks
    rw [if_pos hlen]
  · intro candles l r hlen
    constructor
    · unfold findSwingHighs
      rw [List.map_eq_nil_iff, List.filter_eq_nil_iff]
      intro i hi hcon
      unfold isSwingHigh at hcon
      simp only [Bool.and_eq_true, decide_eq_true_eq] at hcon
      omega
    · unfold findSwingLows
      rw [List.map_eq_nil_iff, List.filter_eq_nil_iff]
      intro i hi hcon
      unfold isSwingLow at hcon
      simp only [Bool.and_eq_true, decide_eq_true_eq] at hcon
      omega

/-- Witness for C9 on a one-candle array. -/
theorem insufficient_data_neutral_witness :
    (([mkC 0 1 2 1 2].getLast? = some (mkC 0 1 2 1 2)) ∧ [mkC 0 1 2 1 2].length < 100) ∧
    evaluateSync (3/2) [mkC 0 1 2 1 2] =
      some ⟨.NO_TRADE, 0, [], (mkC 0 1 2 1 2).close, (mkC 0 1 2 1 2).timestamp,
        none, none, none, none⟩ :=
  ⟨⟨rfl, by norm_num⟩, insufficient_data_neutral.1 (3/2) _ _ rfl (by norm_num)⟩

/-- Counterexample to C9 as stated: on the empty candle array the sync
evaluator reads `candles[candles.length - 1].close` before its length
guard and throws a `TypeError` (modelled as `none`) instead of
returning a neutral signal. -/
theorem evaluate_empty_throws_counterexample : evaluateSync (3/2) [] = none := rfl

/-! ## C10: determinism of the evaluators -/

/-- C10 (amended): every field of a `createSignal` result other than
`timestamp` is a function of the arguments alone, while `timestamp`
equals the ambient wall clock (`Date.now()`); the sync evaluator reads
no clock at all — its signal's `timestamp` and `price` come from the
last candle. -/
theorem evaluator_deterministic_up_to_clock :
    (∀ (now₁ now₂ : ℤ) (action : Action) (confidence : ℚ) (reasoning : List Reason)
      (price : ℚ) (sl tp1 tp2 : Option ℚ) (tf : Option String),
      { createSignal now₁ action confidence reasoning price sl tp1 tp2 tf with
        timestamp := 0 } =
      { createSignal now₂ action confidence reasoning price sl tp1 tp2 tf with
        timestamp := 0 } ∧
      (createSignal now₁ action confidence reasoning price sl tp1 tp2 tf).timestamp = now₁) ∧
    (∀ (minRR : ℚ) (candles : List OHLCV) (s : TradeSignal),
      evaluateSync minRR candles = some s →
      ∃ lastC, candles.getLast? = some lastC ∧
        s.timestamp = lastC.timestamp ∧ s.price = lastC.close) := by
  constructor
  · intro now₁ now₂ action confidence reasoning price sl tp1 tp2 tf
    exact ⟨rfl, rfl⟩
  · intro minRR candles s h
    unfold evaluateSync at h
    cases hlast : candles.getLast? with
    | none =>
        rw [hlast] at h
        exact absurd h (by simp)
    | some lastC =>
        rw [hlast] at h
        dsimp only at h
        refine ⟨lastC, rfl, ?_⟩
        repeat' split at h
        all_goals (injection h with h; subst h; exact ⟨rfl, rfl⟩)

/-- Witness for C10 on a one-candle array. -/
theorem evaluator_deterministic_up_to_clock_witness :
    (evaluateSync (3/2) [mkC 7 1 2 1 2] =
      some ⟨.NO_TRADE, 0, [], 2, 7, none, none, none, none⟩) ∧
    ∃ lastC, [mkC 7 1 2 1 2].getLast? = some lastC ∧
      (⟨Action.NO_TRADE, 0, [], 2, 7, none, none, none, none⟩ : TradeSignal).timestamp =
        lastC.timestamp ∧
      (⟨Action.NO_TRADE, 0, [], 2, 7, none, none, none, none⟩ : TradeSignal).price =
        lastC.close :=
  ⟨rfl, evaluator_deterministic_up_to_clock.2 (3/2) _ _ rfl⟩

/-- Counterexample to C10 as stated: two invocations of the high
risk-reward engine's `createSignal` on identical arguments but at
different wall-clock instants differ (in the `timestamp` field). -/
theorem create_signal_clock_counterexample :
    createSignal 0 .NO_TRADE 0 [] 100 none none none none ≠
    createSignal 1 .NO_TRADE 0 [] 100 none none none none := by decide

/-! ## C8: multi-timeframe alignment -/

/-- C8 (amended): two contexts are aligned iff both report the same
non-RANGING trend, with confidence the mean strength divided by 100
(Scenario E: daily BULLISH 80 with 4H BULLISH 60 gives 0.70); the
penalized strength/150 fallback applies only when the **daily**
timeframe is non-RANGING with strength above 60 and the 4-hour is
RANGING; in every other case — including a non-RANGING 4-hour against a
RANGING daily — the result is RANGING, unaligned, confidence 0. -/
theorem aligned_trend_characterization :
    (∀ d f : HTFContext, d.trend = f.trend → d.trend ≠ .RANGING →
      determineAlignedTrend (some d) (some f) =
        ⟨d.trend, true, ((d.trendStrength + f.trendStrength) / 2) / 100⟩) ∧
    (∀ d f : HTFContext, d.trend ≠ .RANGING → f.trend = .RANGING →
      d.trendStrength > 60 →
      determineAlignedTrend (some d) (some f) = ⟨d.trend, false, d.trendStrength / 150⟩) ∧
    (∀ d f : HTFContext, d.trend = .RANGING →
      determineAlignedTrend (some d) (some f) = ⟨.RANGING, false, 0⟩) ∧
    (∀ x : Option HTFContext, determineAlignedTrend none x = ⟨.RANGING, false, 0⟩ ∧
      determineAlignedTrend x none = ⟨.RANGING, false, 0⟩) ∧
    determineAlignedTrend (some ⟨.BULLISH, 80⟩) (some ⟨.BULLISH, 60⟩) =
      ⟨.BULLISH, true, 7/10⟩ := by
  refine ⟨?_, ?_, ?_, ?_, ?_⟩
  · intro d f h1 h2
    unfold determineAlignedTrend
    dsimp only
    rw [if_pos ⟨h1, h2⟩]
  · intro d f h1 h2 h3
    unfold determineAlignedTrend
    dsimp only
    rw [if_neg (fun hc => h1 (hc.1.trans h2)), if_pos ⟨h1, h2, h3⟩]
  · intro d f h1
    unfold determineAlignedTrend
    dsimp only
    rw [if_neg (fun hc => hc.2 h1), if_neg (fun hc => hc.1 h1)]
  · intro x
    constructor
    · rfl
    · cases x <;> rfl
  · unfold determineAlignedTrend
    dsimp only
    rw [if_pos ⟨rfl, by decide⟩]
    have heq : (((80 : ℚ) + 60) / 2) / 100 = 7/10 := by norm_num
    rw [heq]

/-- Witness for C8: daily BULLISH with strength 80 against a RANGING
4-hour falls back to the (penalized) daily trend. -/
theorem aligned_trend_characterization_witness :
    ((MarketStructure.BULLISH ≠ MarketStructure.RANGING) ∧ (80 : ℚ) > 60) ∧
    determineAlignedTrend (some ⟨.BULLISH, 80⟩) (some ⟨.RANGING, 10⟩) =
      ⟨.BULLISH, false, 80/150⟩ :=
  ⟨⟨by decide, by norm_num⟩,
    aligned_trend_characterization.2.1 ⟨.BULLISH, 80⟩ ⟨.RANGING, 10⟩ (by decide) rfl
      (by norm_num)⟩

/-- Counterexample to C8 as stated: with the daily RANGING and the
4-hour BULLISH at strength 80 (above the threshold, so exactly one
timeframe is non-RANGING with strength above 60), the code returns
RANGING with confidence 0 instead of falling back to the 4-hour trend
with confidence 80/150. -/
theorem aligned_trend_fourhour_fallback_counterexample :
    determineAlignedTrend (some ⟨.RANGING, 50⟩) (some ⟨.BULLISH, 80⟩) =
      ⟨.RANGING, false, 0⟩ ∧
    determineAlignedTrend (some ⟨.RANGING, 50⟩) (some ⟨.BULLISH, 80⟩) ≠
      ⟨.BULLISH, false, 80/150⟩ := by
  have h1 : determineAlignedTrend (some ⟨.RANGING, 50⟩) (some ⟨.BULLISH, 80⟩) =
      ⟨.RANGING, false, 0⟩ := rfl
  refine ⟨h1, ?_⟩
  rw [h1]
  intro hcon
  exact absurd (congrArg AlignedResult.alignedTrend hcon) (by decide)

/-! ## C7: guarded profit factor -/

/-- The win/loss split of the pnl sum (ts engine). -/
theorem sum_wins_losses (trades : List Trade) :
    tsGrossProfit trades + ((tsLosses trades).map Trade.pnl).sum = tsTotalPnL trades := by
  unfold tsGrossProfit tsLosses tsWins tsTotalPnL
  induction trades with
  | nil => simp
  | cons t ts ih =>
      by_cases hp : t.pnl > 0
      · simp only [List.filter_cons, List.map_cons, List.sum_cons]
        simp [hp, not_le.mpr hp]
        linarith [ih]
      · simp only [List.filter_cons, List.map_cons, List.sum_cons]
        simp [hp, not_lt.mp hp]
        linarith [ih]

theorem tsGrossProfit_nonneg (trades : List Trade) : 0 ≤ tsGrossProfit trades := by
  unfold tsGrossProfit tsWins
  apply List.sum_nonneg
  intro x hx
  obtain ⟨t, ht, rfl⟩ := List.mem_map.mp hx
  have := List.mem_filter.mp ht
  have hp : t.pnl > 0 := by simpa using this.2
  exact hp.le

/-- C7: `profitFactor` is a guarded ratio in both engines and is never
NaN.  In `part_004`, zero gross loss returns the gross profit verbatim
(at the 2-decimal display rounding applied to every metric) and
otherwise the rounded ratio; in the ts engine a positive-profit book
with no losses returns the explicit sentinel 100, a flat book returns
0 = gross profit, and otherwise the exact ratio grossProfit/|grossLoss|. -/
theorem profit_factor_guarded :
    (∀ trades : List P4Trade, p4LosingSum trades = 0 →
      p4ProfitFactor trades = toFixedQ 2 (p4WinningSum trades)) ∧
    (∀ trades : List P4Trade, 0 < p4LosingSum trades →
      p4ProfitFactor trades = toFixedQ 2 (p4WinningSum trades / p4LosingSum trades)) ∧
    (∀ trades : List Trade, 0 < tsAvgLoss trades →
      tsProfitFactor trades = tsGrossProfit trades / tsGrossLoss trades) ∧
    (∀ trades : List Trade, tsAvgLoss trades = 0 →
      (tsProfitFactor trades = 100 ∧ 0 < tsGrossProfit trades) ∨
      (tsProfitFactor trades = 0 ∧ tsGrossProfit trades = 0)) := by
  refine ⟨?_, ?_, ?_, ?_⟩
  · intro trades h
    unfold p4ProfitFactor
    rw [if_neg (by rw [h]; exact lt_irrefl 0)]
  · intro trades h
    unfold p4ProfitFactor
    rw [if_pos h]
  · intro trades h
    unfold tsProfitFactor
    rw [if_pos h]
  · intro trades h0
    have hsl : ((tsLosses trades).map Trade.pnl).sum = 0 := by
      unfold tsAvgLoss at h0
      split at h0
      · next hlen =>
          have habs := abs_eq_zero.mp h0
          rcases div_eq_zero_iff.mp habs with hz | hz
          · exact hz
          · exfalso
            have hne : (tsLosses trades).length ≠ 0 := by omega
            exact hne (by exact_mod_cast hz)
      · next hlen =>
          have hnil : tsLosses trades = [] := List.length_eq_zero.mp (by omega)
          rw [hnil]
          rfl
    have hsplit := sum_wins_losses trades
    have hnn := tsGrossProfit_nonneg trades
    unfold tsProfitFactor
    rw [if_neg (by rw [h0]; exact lt_irrefl 0)]
    by_cases hpos : tsTotalPnL trades > 0
    · rw [if_pos hpos]
      exact Or.inl ⟨rfl, by linarith⟩
    · rw [if_neg hpos]
      exact Or.inr ⟨rfl, by linarith [not_lt.mp hpos]⟩

/-- Concrete trades for the C7 witness. -/
def demoTrade : Trade :=
  ⟨⟨0, 100, 95, 110, 1, .LONG, "", "", 5, 1, 10000⟩, 1, 106, .TAKE_PROFIT, 50, 1/2, 10⟩

/-- Witness for C7: a book with one winning trade in each engine. -/
theorem profit_factor_guarded_witness :
    (p4LosingSum [⟨50, true⟩] = 0 ∧
      p4ProfitFactor [⟨50, true⟩] = toFixedQ 2 (p4WinningSum [⟨50, true⟩])) ∧
    (tsAvgLoss [demoTrade] = 0 ∧
      ((tsProfitFactor [demoTrade] = 100 ∧ 0 < tsGrossProfit [demoTrade]) ∨
       (tsProfitFactor [demoTrade] = 0 ∧ tsGrossProfit [demoTrade] = 0))) := by
  have hp4 : p4LosingSum [⟨50, true⟩] = 0 := by
    simp [p4LosingSum]
  have hts : tsAvgLoss [demoTrade] = 0 := by
    simp [tsAvgLoss, tsLosses, demoTrade]
  exact ⟨⟨hp4, profit_factor_guarded.1 _ hp4⟩,
    ⟨hts, profit_factor_guarded.2.2.2 _ hts⟩⟩

/-! ## C6: the leverage cap -/

/-- Flooring to two decimals never increases a quantity. -/
theorem floor2_le (q : ℚ) : ((⌊q * 100⌋ : ℚ)) / 100 ≤ q := by
  rw [div_le_iff (by norm_num : (0:ℚ) < 100)]
  exact Int.floor_le _

/-- C6 (amended): `AccountManager.calculatePositionSize` always
respects the leverage cap — the returned (two-decimal-floored) share
count satisfies `shares × entryPrice ≤ capital × leverage`.  The
`PositionSizer.intelligentSizing` blend applies no such cap (see the
counterexample). -/
theorem account_manager_leverage_cap (state : AMState) (config : AMConfig)
    (entryPrice stopLoss : ℚ) (hentry : 0 < entryPrice)
    (hmax : 0 ≤ state.capital * config.leverage) :
    (calculatePositionSize state config entryPrice stopLoss).shares * entryPrice ≤
      state.capital * config.leverage := by
  unfold calculatePositionSize
  by_cases h0 : |entryPrice - stopLoss| = 0
  · rw [if_pos h0]
    simpa using hmax
  · rw [if_neg h0]
    dsimp only
    by_cases hc : state.capital * config.riskPerTrade / |entryPrice - stopLoss| * entryPrice >
        state.capital * config.leverage
    · rw [if_pos hc]
      have hstep := floor2_le (state.capital * config.leverage / entryPrice)
      calc (⌊state.capital * config.leverage / entryPrice * 100⌋ : ℚ) / 100 * entryPrice
          ≤ state.capital * config.leverage / entryPrice * entryPrice :=
            mul_le_mul_of_nonneg_right hstep hentry.le
        _ = state.capital * config.leverage := div_mul_cancel₀ _ (ne_of_gt hentry)
    · rw [if_neg hc]
      push_neg at hc
      have hstep := floor2_le (state.capital * config.riskPerTrade / |entryPrice - stopLoss|)
      calc (⌊state.capital * config.riskPerTrade / |entryPrice - stopLoss| * 100⌋ : ℚ) / 100 *
            entryPrice
          ≤ state.capital * config.riskPerTrade / |entryPrice - stopLoss| * entryPrice :=
            mul_le_mul_of_nonneg_right hstep hentry.le
        _ ≤ state.capital * config.leverage := hc

def c6Config : AMConfig := ⟨10000, 1/1000, 0, 1/50, 1/20, 10, 2⟩

/-- Witness for C6 at entry 100, stop 98 on a fresh account with
leverage 2. -/
theorem account_manager_leverage_cap_witness :
    ((0 : ℚ) < 100 ∧ 0 ≤ (mkAccountManager c6Config).capital * c6Config.leverage) ∧
    (calculatePositionSize (mkAccountManager c6Config) c6Config 100 98).shares * 100 ≤
      (mkAccountManager c6Config).capital * c6Config.leverage :=
  ⟨⟨by norm_num, by norm_num [mkAccountManager, c6Config]⟩,
    account_manager_leverage_cap (mkAccountManager c6Config) c6Config 100 98
      (by norm_num) (by norm_num [mkAccountManager, c6Config])⟩

/-- Counterexample to C6 as stated: `intelligentSizing` on the default
configuration (balance 25000) with entry 100 and stop 99.99 recommends
22812.5 units — a notional of 2,281,250, more than 90× the balance —
because no leverage cap is applied anywhere in `PositionSizer`. -/
theorem intelligent_sizing_no_leverage_cap_counterexample :
    (intelligentSizing (mkPositionSizer {}) 100 (9999/100) none none none
      (55/100) "B" (1/2) (1/2)).quantity = 45625/2 ∧
    (45625/2 : ℚ) * 100 > 25000 * 90 := by
  constructor
  · have hfix : fixedPercentageRisk (mkPositionSizer {}) 100 (9999/100) =
        ⟨25000, 250⟩ := by
      unfold fixedPercentageRisk mkPositionSizer
      have habs : |(100 : ℚ) - 9999/100| = 1/100 := by
        rw [abs_of_pos (by norm_num)]
        norm_num
      rw [habs]
      unfold toFixedQ rndAway
      norm_num [Int.floor_eq_iff]
    have hconf : confidenceGradedSizing (mkPositionSizer {}) 100 (9999/100) "B" (1/2) =
        ⟨28125/2, 14063/100⟩ := by
      unfold confidenceGradedSizing gradeMultiplier mkPositionSizer
      have habs : |(100 : ℚ) - 9999/100| = 1/100 := by
        rw [abs_of_pos (by norm_num)]
        norm_num
      rw [habs]
      have hclamp : min (max ((1 : ℚ) * (3/4 * (1/2 + 1/2 * (1/2)))) (1/4)) 3 = 9/16 := by
        rw [max_eq_left (by norm_num), min_eq_left (by norm_num)]
        norm_num
      unfold toFixedQ rndAway
      norm_num [max_def, min_def, Int.floor_eq_iff]
    have hmom : momentumBasedSizing (mkPositionSizer {}) 100 (9999/100) (1/2) =
        ⟨25000, 250⟩ := by
      unfold momentumBasedSizing mkPositionSizer
      have habs : |(100 : ℚ) - 9999/100| = 1/100 := by
        rw [abs_of_pos (by norm_num)]
        norm_num
      rw [habs]
      unfold toFixedQ rndAway
      norm_num [max_def, min_def, Int.floor_eq_iff]
    unfold intelligentSizing
    rw [hfix, hconf, hmom]
    unfold toFixedQ rndAway
    norm_num [Int.floor_eq_iff]
  · norm_num

/-! ## Claim C5: entry discipline of the backtest engines -/

theorem c5Nth50 : nth c5Candles 50 = ⟨50, 100, 101, 99, 100, 1⟩ := rfl

theorem c5Nth51 : nth c5Candles 51 = ⟨51, 100, 101, 99, 100, 1⟩ := rfl

/-- Sizing of the first entry of the `c5Candles` run: risk 2% of
10000 over a 5-point stop, 40 shares, 200 at risk. -/
theorem c5Size1 : calculatePositionSize (mkAccountManager c5Config) c5Config 100 95 =
    ⟨40, 200⟩ := by
  unfold calculatePositionSize mkAccountManager c5Config
  rw [show |(100:ℚ) - 95| = 5 from by
    rw [show (100:ℚ) - 95 = 5 from by norm_num]; exact abs_of_pos (by norm_num)]
  norm_num [Int.floor_eq_iff]

/-- State of the `c5Candles` run after the step at index 50: the first
position is open and its entry fee of 4 is paid. -/
def c5St1 : EngState :=
  ⟨⟨10000, 9996, 10000, -4, -4, 1, 0, 1, 10000, 4⟩, some c5FirstPos, [], [(50, 9996)], [none]⟩

theorem c5Step50 : runStep c5Config c5Strategy "const" c5Candles
    ⟨mkAccountManager c5Config, none, [], [], []⟩ 50 = c5St1 := by
  unfold runStep
  rw [c5Nth50]
  dsimp only [c5Strategy]
  rw [if_pos (show SAction.SBUY ≠ SAction.SWAIT from by decide)]
  unfold openPosition
  rw [c5Size1]
  dsimp only
  rw [if_neg (show ¬(40:ℚ) ≤ 0 from by norm_num)]
  norm_num [updateOnTradeStart, updateOnTradeEnd, calculateUnrealizedPnL, c5FirstPos,
    c5St1, mkAccountManager, c5Config]

/-- Sizing of the second entry (capital 9996): the raw 39.984 shares
are floored to two decimals. -/
theorem c5Size2 : calculatePositionSize ⟨10000, 9996, 10000, -4, -4, 1, 0, 1, 10000, 4⟩
    c5Config 100 95 = ⟨1999/50, 1999/10⟩ := by
  unfold calculatePositionSize c5Config
  rw [show |(100:ℚ) - 95| = 5 from by
    rw [show (100:ℚ) - 95 = 5 from by norm_num]; exact abs_of_pos (by norm_num)]
  norm_num [Int.floor_eq_iff]

/-- The position opened at index 51 while `c5FirstPos` was still open. -/
def c5SecondPos : Position :=
  ⟨51, 100, 95, 110, 1999/50, .LONG, "const", "", 1999/10, 9995/4998, 9996⟩

/-- State after the step at index 51: `openPosition` ran again and
replaced `c5FirstPos` with `c5SecondPos` without closing it. -/
def c5St2 : EngState :=
  ⟨⟨10000, 4996001/500, 10000, -3999/500, -3999/500, 2, 0, 2, 10000, 3999/500⟩,
    some c5SecondPos, [], [(50, 9996), (51, 4996001/500)], [none, some c5FirstPos]⟩

theorem c5Step51 : runStep c5Config c5Strategy "const" c5Candles c5St1 51 = c5St2 := by
  unfold runStep
  rw [c5Nth51]
  dsimp only [c5St1, c5Strategy]
  rw [show checkExit c5FirstPos ⟨51, 100, 101, 99, 100, 1⟩ = none from by
    unfold checkExit c5FirstPos
    norm_num]
  dsimp only
  rw [if_pos (show SAction.SBUY ≠ SAction.SWAIT from by decide)]
  unfold openPosition
  rw [c5Size2]
  dsimp only
  rw [if_neg (show ¬(1999/50:ℚ) ≤ 0 from by norm_num)]
  norm_num [updateOnTradeStart, updateOnTradeEnd, calculateUnrealizedPnL, c5FirstPos,
    c5SecondPos, c5St2, c5Config]

/-- Counterexample to C5 as stated: in `BacktestEngine.run`
(`src/backtest/BacktestEngine.ts`) `openPosition` never checks
`currentPosition`, so on the constant-signal run over `c5Candles` the
engine opens at index 50 and opens again at index 51 while the first
position is still open, replacing it.  The open-event trace records an
open with `none` held and then an open with `c5FirstPos` still held,
and no trade was ever closed in between. -/
theorem open_position_replaces_open_counterexample :
    c5Run.openEvents = [none, some c5FirstPos] ∧ c5Run.trades = [] := by
  have hrun : c5Run = c5St2 := by
    unfold c5Run runBacktest
    rw [show c5Candles.length - 50 = 2 from rfl]
    rw [show List.range' 50 2 = [50, 51] from rfl]
    rw [List.foldl_cons, List.foldl_cons, List.foldl_nil]
    rw [c5Step50, c5Step51]
  rw [hrun]
  exact ⟨rfl, rfl⟩

/-- C5 (amended): in the `part_004` backtest entry path, a position is
opened only when no position is currently open for the coin, only when
the computed quantity is positive, and only when equity covers the
entry commission, which is deducted immediately on open.  The
pre-trade risk gate (`canOpenPosition`) is computed inside
`intelligentSizing` but its `canOpen` verdict is never consulted by
the entry path. -/
theorem p4_entry_invariant (commission slippage : ℚ) (coin : String) (candle : OHLCV)
    (signal : TradeSignal) (st : P4State)
    (hopen : (p4EntryStep commission slippage coin candle signal st).2 = true) :
    st.position = none ∧
      ∃ pos, (p4EntryStep commission slippage coin candle signal st).1.position = some pos ∧
        0 < pos.quantity ∧
        pos.quantity * signal.price * commission ≤ st.equity ∧
        (p4EntryStep commission slippage coin candle signal st).1.equity =
          st.equity - pos.quantity * signal.price * commission := by
  unfold p4EntryStep at hopen ⊢
  cases hpos : st.position with
  | some p => rw [hpos] at hopen; simp at hopen
  | none =>
    rw [hpos] at hopen
    dsimp only at hopen ⊢
    by_cases hact : signal.action = Action.BUY ∨ signal.action = Action.SELL
    · rw [if_pos hact] at hopen ⊢
      by_cases hqty : (p4Sizing st signal).quantity ≤ 0
      · rw [if_pos hqty] at hopen; simp at hopen
      · rw [if_neg hqty] at hopen ⊢
        by_cases hfee : st.equity < (p4Sizing st signal).quantity * signal.price * commission
        · rw [if_pos hfee] at hopen; simp at hopen
        · rw [if_neg hfee] at hopen ⊢
          exact ⟨rfl, ⟨_, rfl, lt_of_not_le hqty, le_of_not_lt hfee, rfl⟩⟩
    · rw [if_neg hact] at hopen; simp at hopen

def p4DemoCandle : OHLCV := ⟨0, 100, 101, 99, 100, 1⟩

def p4DemoSignal : TradeSignal :=
  ⟨.BUY, 1/2, [], 100, 0, some 95, some 110, none, none⟩

def p4DemoSt : P4State := ⟨10000, none, mkPositionSizer {}⟩

/-- On the demo entry (balance 25000, entry 100, stop 95) the blended
quantity is 45.625. -/
theorem p4DemoQty : (p4Sizing p4DemoSt p4DemoSignal).quantity = 365/8 := by
  have hstop : p4StopLossPrice p4DemoSignal = 95 := by
    unfold p4StopLossPrice p4DemoSignal
    dsimp only
    rw [if_neg (show ¬(95 : ℚ) = 0 from by norm_num)]
  unfold p4Sizing
  rw [hstop]
  rw [show p4DemoSt.sizer = mkPositionSizer {} from rfl,
    show p4DemoSignal.price = (100 : ℚ) from rfl]
  have habs : |(100 : ℚ) - 95| = 5 := by
    rw [show (100 : ℚ) - 95 = 5 from by norm_num]
    exact abs_of_pos (by norm_num)
  have hfix : fixedPercentageRisk (mkPositionSizer {}) 100 95 = ⟨50, 250⟩ := by
    unfold fixedPercentageRisk mkPositionSizer
    rw [habs]
    unfold toFixedQ rndAway
    norm_num [Int.floor_eq_iff]
  have hconf : confidenceGradedSizing (mkPositionSizer {}) 100 95 "B" (1/2) =
      ⟨225/8, 14063/100⟩ := by
    unfold confidenceGradedSizing gradeMultiplier mkPositionSizer
    rw [habs]
    unfold toFixedQ rndAway
    norm_num [max_def, min_def, Int.floor_eq_iff]
  have hmom : momentumBasedSizing (mkPositionSizer {}) 100 95 (1/2) = ⟨50, 250⟩ := by
    unfold momentumBasedSizing mkPositionSizer
    rw [habs]
    unfold toFixedQ rndAway
    norm_num [max_def, min_def, Int.floor_eq_iff]
  unfold intelligentSizing
  rw [hfix, hconf, hmom]
  unfold toFixedQ rndAway
  norm_num [Int.floor_eq_iff]

/-- The demo entry does open a position. -/
theorem p4Demo_opens :
    (p4EntryStep (1/1000) 0 "BTC" p4DemoCandle p4DemoSignal p4DemoSt).2 = true := by
  unfold p4EntryStep
  rw [show p4DemoSt.position = (none : Option P4Position) from rfl]
  dsimp only
  rw [if_pos (show p4DemoSignal.action = Action.BUY ∨ p4DemoSignal.action = Action.SELL
    from Or.inl rfl)]
  rw [p4DemoQty]
  rw [if_neg (show ¬(365/8 : ℚ) ≤ 0 from by norm_num)]
  rw [show p4DemoSignal.price = (100 : ℚ) from rfl,
    show p4DemoSt.equity = (10000 : ℚ) from rfl]
  rw [if_neg (show ¬(10000 : ℚ) < 365/8 * 100 * (1/1000) from by norm_num)]

/-- Witness for the amended C5 on a fresh `part_004` state with a BUY
signal at price 100 and stop 95. -/
theorem p4_entry_invariant_witness :
    (p4EntryStep (1/1000) 0 "BTC" p4DemoCandle p4DemoSignal p4DemoSt).2 = true ∧
    (p4DemoSt.position = none ∧
      ∃ pos, (p4EntryStep (1/1000) 0 "BTC" p4DemoCandle p4DemoSignal p4DemoSt).1.position =
          some pos ∧
        0 < pos.quantity ∧
        pos.quantity * p4DemoSignal.price * (1/1000) ≤ p4DemoSt.equity ∧
        (p4EntryStep (1/1000) 0 "BTC" p4DemoCandle p4DemoSignal p4DemoSt).1.equity =
          p4DemoSt.equity - pos.quantity * p4DemoSignal.price * (1/1000)) :=
  ⟨p4Demo_opens,
    p4_entry_invariant (1/1000) 0 "BTC" p4DemoCandle p4DemoSignal p4DemoSt p4Demo_opens⟩

end TradingBot
